import Mathlib

/-!
# Verification of the WMMF codec (`geomodels/wmmf.py`)

A shallow embedding of the World Magnetic Model Format tools:
metadata text codec (`MetaData`), the binary coefficient codec and
triangular packing engine (`WmmData`), and the IGRF text importer.

Modelling conventions:
* `float64` values are modelled as `ℚ`.  The codec never performs float
  arithmetic other than sums of absolute values (whose comparison with
  zero agrees with the exact comparison), so rationals are faithful for
  every property stated here.
* Files are modelled structurally: a text file is its list of lines, the
  binary `.cof` file is its 8-character id plus a stream of stored scalars.
* Python exceptions are modelled by `Except Err` with one constructor per
  exception class raised by the source.
-/

/-- Python exception classes raised by `wmmf.py`, without messages. -/
inductive Err where
  | runtimeErr    -- RuntimeError
  | valueErr      -- ValueError
  | typeErr       -- TypeError
  | indexErr      -- IndexError
  | stopIter      -- StopIteration from `next(fd)` on an empty file
  | structErr     -- struct.error from packing an out-of-range int32
  deriving DecidableEq, Repr

instance {ε α : Type} [DecidableEq ε] [DecidableEq α] : DecidableEq (Except ε α)
  | .error e, .error f => decidable_of_iff (e = f) (by simp)
  | .error _, .ok _ => isFalse (by simp)
  | .ok _, .error _ => isFalse (by simp)
  | .ok a, .ok b => decidable_of_iff (a = b) (by simp)

/-! ## Python `str`/`int` helpers

`str(int)` and `int(str)` as used by `MetaData.__str__`, `MetaData.load`
and the IGRF header parser.  Decimal digits are produced most significant
first by a fuel-based loop (the fuel argument only bounds recursion). -/

/-- Decimal digits of `n`, most significant first; `[]` for `n = 0`.
`fuel` must be at least the number of digits (callers pass `n`). -/
def digitsRev : Nat → Nat → List Nat
  | 0, _ => []
  | fuel + 1, n => if n = 0 then [] else digitsRev fuel (n / 10) ++ [n % 10]

/-- A decimal digit as a character. -/
def digitToChar (d : Nat) : Char := Char.ofNat (48 + d)

/-- The numeric value of a decimal digit character. -/
def charToDigit (c : Char) : Nat := c.toNat - 48

/-- Whether `c` is an ASCII decimal digit. -/
def isDigitChar (c : Char) : Bool := 48 ≤ c.toNat ∧ c.toNat ≤ 57

/-- Python `str(n)` for a natural number. -/
def pyStrNat (n : Nat) : String :=
  if n = 0 then "0" else String.mk ((digitsRev n n).map digitToChar)

/-- Python `str(i)` for an integer. -/
def pyStr (i : Int) : String :=
  if i < 0 then "-" ++ pyStrNat i.natAbs else pyStrNat i.natAbs

/-- Value of a list of decimal digit characters (most significant first);
`none` unless the list is nonempty and all characters are digits. -/
def parseDigits (cs : List Char) : Option Nat :=
  if cs ≠ [] ∧ cs.all isDigitChar then
    some (cs.foldl (fun a c => 10 * a + charToDigit c) 0)
  else none

/-- Python whitespace test for `str.strip` (common ASCII subset). -/
def wsChar (c : Char) : Bool := c = ' ' ∨ c = '\t' ∨ c = '\n' ∨ c = '\r'

/-- Python `str.startswith(pre)` (spelled on character lists so that it
evaluates by kernel reduction). -/
def pyStartsWith (s pre : String) : Bool := pre.toList.isPrefixOf s.toList

/-- Python `str.upper()` (spelled on character lists so that it evaluates
by kernel reduction). -/
def pyToUpper (s : String) : String := String.mk (s.toList.map Char.toUpper)

/-- `str.strip()` on a character list. -/
def stripChars (cs : List Char) : List Char :=
  ((cs.dropWhile wsChar).reverse.dropWhile wsChar).reverse

/-- `str.rstrip()` on a character list. -/
def rstripChars (cs : List Char) : List Char :=
  (cs.reverse.dropWhile wsChar).reverse

/-- Python `int(s)`: optional surrounding whitespace, optional sign, decimal
digits.  (Digit-group underscores are not modelled; no input in this
development contains them.) -/
def pyInt (s : String) : Option Int :=
  let t := stripChars s.toList
  if t.take 1 = ['-'] then (parseDigits (t.drop 1)).map (fun n => -(n : Int))
  else if t.take 1 = ['+'] then (parseDigits (t.drop 1)).map (fun n => (n : Int))
  else (parseDigits t).map (fun n => (n : Int))

/-! `Rat.add` and friends are `@[irreducible]` in the library, so the
rational arithmetic the codec needs is spelled out through `mkRat`, which
evaluates by kernel reduction; each operation agrees with the library one
(`qAdd_eq_add` and friends below). -/

/-- Rational addition through `mkRat`; equal to `a + b`. -/
def qAdd (a b : ℚ) : ℚ :=
  mkRat (a.num * (b.den : Int) + b.num * (a.den : Int)) (a.den * b.den)

/-- Rational subtraction through `mkRat`; equal to `a - b`. -/
def qSub (a b : ℚ) : ℚ := qAdd a (-b)

/-- Sum of a list of rationals; equal to `l.sum`. -/
def qSum (l : List ℚ) : ℚ := l.foldr qAdd 0

/-- Python `max(l)` on floats; `none` on an empty list (`ValueError`). -/
def pyMax : List ℚ → Option ℚ
  | [] => none
  | x :: xs => some (xs.foldl (fun a b => if a < b then b else a) x)

/-- Python `min(l)` on floats; `none` on an empty list (`ValueError`). -/
def pyMin : List ℚ → Option ℚ
  | [] => none
  | x :: xs => some (xs.foldl (fun a b => if b < a then b else a) x)

/-- Truncation toward zero, Python `int(float)`. -/
def pyTrunc (q : ℚ) : Int :=
  if q.num < 0 then -(((((-q.num).toNat) / q.den : Nat)) : Int)
  else (((q.num.toNat / q.den : Nat)) : Int)

/-- Python `float(s)` restricted to finite decimal literals
`[sign] digits [. digits]`, the only shapes fed to it here.
`digits.frac` denotes the rational `(digits * 10^k + frac) / 10^k`,
written through `mkRat` so that it evaluates. -/
def pyFloat (s : String) : Option ℚ :=
  let core : List Char → Option ℚ := fun cs =>
    match cs.splitOn '.' with
    | [intPart] => (parseDigits intPart).map (fun n => (n : ℚ))
    | [intPart, fracPart] =>
      match parseDigits intPart, parseDigits fracPart with
      | some n, some f =>
        some (mkRat ((n : Int) * 10 ^ fracPart.length + (f : Int)) (10 ^ fracPart.length))
      | _, _ => none
    | _ => none
  let t := stripChars s.toList
  if t.take 1 = ['-'] then (core (t.drop 1)).map (fun q => -q)
  else if t.take 1 = ['+'] then core (t.drop 1)
  else core t

/-- Python `range(start, stop, step)` as a list; `step = 0` raises
`ValueError`. -/
def pyRange (start stop step : Int) : Except Err (List Int) :=
  if step = 0 then .error .valueErr
  else
    let len : Nat :=
      if 0 < step then ((stop - start + step - 1).fdiv step).toNat
      else ((start - stop + (-step) - 1).fdiv (-step)).toNat
    .ok ((List.range len).map (fun k => start + step * k))

/-! ## Dense matrices and the triangular packing engine

A dense 2-d `numpy` array of `float64` is a shape together with an entry
function (entries outside the shape are irrelevant; matrix equality is
compared on the shape).  `C.entry d o` is the coefficient of degree `d`
(axis 0) and order `o` (axis 1). -/

/-- A dense 2-d array of shape `rows × cols`. -/
structure Mtx where
  rows : Nat
  cols : Nat
  entry : Nat → Nat → ℚ

/-- `numpy` array equality: same shape and same entries inside it. -/
def mtxEq (A B : Mtx) : Prop :=
  A.rows = B.rows ∧ A.cols = B.cols ∧
    ∀ d < A.rows, ∀ o < A.cols, A.entry d o = B.entry d o

instance (A B : Mtx) : Decidable (mtxEq A B) := by
  unfold mtxEq; infer_instance

/-- The all-zero `(n+1) × (m+1)` array, `np.zeros((n + 1, m + 1))`. -/
def npZeros (n m : Nat) : Mtx := ⟨n + 1, m + 1, fun _ _ => 0⟩

/-- `np.triu_indices(a, 0, b)`: the index pairs `(i, j)` with `i < a` and
`i ≤ j < b`, in row-major order — exactly the order-major/degree-minor
block order of the packed layout once applied to a transposed matrix. -/
def triuIndices (a b : Nat) : List (Nat × Nat) :=
  (List.range a).flatMap (fun i => (List.range (b - i)).map (fun k => (i, i + k)))

/-- Gather `A.T[pairs]`: for pair `(i, j)` read `A[j, i]`. -/
def gatherT (A : Mtx) (pairs : List (Nat × Nat)) : List ℚ :=
  pairs.map (fun p => A.entry p.2 p.1)

/-- One fancy-index assignment `A.T[i, j] = v`, i.e. `A[j, i] = v`, on the
entry function. -/
def assignT (f : Nat → Nat → ℚ) (p : Nat × Nat) (v : ℚ) : Nat → Nat → ℚ :=
  fun d o => if d = p.2 ∧ o = p.1 then v else f d o

/-- `A.T[pairs] = data`: sequential fancy-index assignment (later pairs
win, as in `numpy`; the pair lists used here are duplicate-free). -/
def scatterT (f : Nat → Nat → ℚ) (l : List ((Nat × Nat) × ℚ)) : Nat → Nat → ℚ :=
  l.foldl (fun g x => assignT g x.1 x.2) f

/-- `C = np.zeros((n+1, m+1)); C.T[np.triu_indices(m+1, 0, n+1)] = data`
(`wmmf.py` lines 221–222). -/
def unpackC (n m : Nat) (data : List ℚ) : Mtx :=
  ⟨n + 1, m + 1, scatterT (fun _ _ => 0) ((triuIndices (m + 1) (n + 1)).zip data)⟩

/-- `S = np.zeros((n+1, m+1)); S.T[1:, 1:][np.triu_indices(m, 0, n)] = data`
(`wmmf.py` lines 226–227): the same scatter through pairs shifted by one in
both coordinates. -/
def unpackS (n m : Nat) (data : List ℚ) : Mtx :=
  ⟨n + 1, m + 1,
    scatterT (fun _ _ => 0)
      (((triuIndices m n).map (fun p => (p.1 + 1, p.2 + 1))).zip data)⟩

/-- `coeffs.C.T[np.triu_indices(m + 1, 0, n + 1)]` (`wmmf.py` line 285). -/
def packC (C : Mtx) (n m : Nat) : List ℚ :=
  gatherT C (triuIndices (m + 1) (n + 1))

/-- `coeffs.S.T[1:, 1:][np.triu_indices(m, 0, n)]` (`wmmf.py` line 289). -/
def packS (S : Mtx) (n m : Nat) : List ℚ :=
  gatherT S ((triuIndices m n).map (fun p => (p.1 + 1, p.2 + 1)))

/-- The dense-matrix constraint that only `order ≤ degree` entries are
meaningful: everything strictly above the diagonal is zero. -/
def triangular (A : Mtx) : Prop :=
  ∀ d < A.rows, ∀ o < A.cols, d < o → A.entry d o = 0

/-- Sine coefficients of order `0` vanish. -/
def sColZero (S : Mtx) : Prop := ∀ d < S.rows, S.entry d 0 = 0

instance (A : Mtx) : Decidable (triangular A) := by unfold triangular; infer_instance

instance (S : Mtx) : Decidable (sColZero S) := by unfold sColZero; infer_instance

/-- `SphCoeffSet = namedtuple('SphCoeffSet', ['C', 'S'])`. -/
structure SphCoeffSet where
  C : Mtx
  S : Mtx

/-! ## The binary `.cof` stream

The binary file after its 8-character id is a stream of little-endian
scalars; each stored scalar is either an `int32` written by
`struct.pack('<ii', …)` or a `float64`. -/

/-- One scalar stored in the binary coefficient file. -/
inductive BinTok where
  | int (i : Int)
  | flt (q : ℚ)
  deriving DecidableEq

/-- The binary `.cof` file: 8-byte id then the scalar stream. -/
structure CofFile where
  id : String
  toks : List BinTok
  deriving DecidableEq

/-- Read `struct.unpack('<ii', fd.read(2 * 4))`: two leading ints. -/
def readInts2 : List BinTok → Except Err (Int × Int × List BinTok)
  | .int a :: .int b :: rest => .ok (a, b, rest)
  | _ => .error .valueErr

/-- Read `np.fromfile(fd, dtype=np.float64, count=k)`: `k` leading floats. -/
def readFloats (k : Nat) (s : List BinTok) : Except Err (List ℚ × List BinTok) :=
  match k, s with
  | 0, s => .ok ([], s)
  | k + 1, .flt q :: rest =>
    match readFloats k rest with
    | .ok (l, rest') => .ok (q :: l, rest')
    | .error e => .error e
  | _ + 1, _ => .error .valueErr

/-! ## `MetaData` (the WMMF text header) -/

/-- The dataclass `MetaData` with its defaults (`wmmf.py` lines 34–61).
`Type` and `ByteOrder` carry no type annotation in the source, so they are
class attributes, not dataclass fields: they take no part in equality and
no behaviour reads them, hence they are omitted here. -/
structure MetaData where
  Name : String := "N/A"
  Description : String := "International Geomagnetic Reference Field"
  URL : String := "http://ngdc.noaa.gov/IAGA/vmod/igrf.html"
  Publisher : String := "International Association of Geomagnetism and Aeronomy"
  ReleaseDate : String := "N/A"
  DataCutOff : String := "N/A"
  ConversionDate : String := "N/A"
  DataVersion : Int := 1
  Radius : Int := 6371200
  NumModels : Int := 0
  Epoch : Int := 1900
  DeltaEpoch : Int := 5
  MinTime : Int := 0
  MaxTime : Int := 0
  MinHeight : Int := -1000
  MaxHeight : Int := 600000
  NumConstants : Int := 0
  Normalization : Int := 1
  ID : String := "N/A"
  N : Int := 0
  M : Int := 0
  FORMAT_VERSION : Int := 1
  deriving DecidableEq

/-- The last `n` characters of a list, Python `s[-n:]`. -/
def lastN (n : Nat) (l : List Char) : List Char := (l.reverse.take n).reverse

/-- `MetaData.get_years`: `range(Epoch, Epoch + DeltaEpoch * NumModels,
DeltaEpoch)` as a list. -/
def MetaData.get_years (md : MetaData) : Except Err (List Int) :=
  pyRange md.Epoch (md.Epoch + md.DeltaEpoch * md.NumModels) md.DeltaEpoch

/-- `MetaData._generation_str` (`wmmf.py` lines 101–115); `int(Name[-2:])`
raises `ValueError` when the last two characters are not a number. -/
def MetaData.generation_str (md : MetaData) : Except Err String :=
  if md.Name ≠ "" ∧ md.Name ≠ "N/A" then
    match pyInt (String.mk (lastN 2 md.Name.toList)) with
    | none => .error .valueErr
    | some v =>
      let generation := pyStr (v - 1)
      if generation = "1" then .ok (generation ++ "st Generation")
      else if generation = "2" then .ok (generation ++ "nd Generation")
      else if generation = "3" then .ok (generation ++ "rd Generation")
      else .ok (generation ++ "th Generation")
  else .ok ""

/-- `MetaData.get_id` (`wmmf.py` lines 117–126). -/
def MetaData.get_id (md : MetaData) : String :=
  if md.ID = "" ∨ md.ID = "N/A" then
    if ¬ pyStartsWith md.Name "igrf" ∨ md.Name.length ≠ 6 then "N/A"
    else pyToUpper md.Name ++ "-A"
  else md.ID

/-- `MetaData.__str__` (`wmmf.py` lines 128–165) as the list of lines it
writes.  The `\`-continuation in the source joins the first two physical
lines of the template into one output line. -/
def MetaData.render (md : MetaData) : Except Err (List String) := do
  let upper_name := pyToUpper md.Name
  let description ←
    if md.Description = "International Geomagnetic Reference Field" then do
      let gen ← md.generation_str
      pure (md.Description ++ " " ++ gen)
    else pure md.Description
  let id_ := md.get_id
  pure
    [ "WMMF-" ++ pyStr md.FORMAT_VERSION,
      "# A World Magnetic Model (Format " ++ pyStr md.FORMAT_VERSION
        ++ ") file.  For documentation on the",
      "# format of this file see",
      "# http://geographiclib.sf.net/html/magnetic.html#magneticformat",
      "Name            " ++ md.Name,
      "Description     " ++ description,
      "URL             " ++ md.URL,
      "Publisher       " ++ md.Publisher,
      "ReleaseDate     " ++ md.ReleaseDate,
      "DataCutOff      " ++ md.DataCutOff,
      "ConversionDate  " ++ md.ConversionDate,
      "DataVersion     " ++ pyStr md.DataVersion,
      "Radius          " ++ pyStr md.Radius,
      "NumModels       " ++ pyStr md.NumModels,
      "Epoch           " ++ pyStr md.Epoch,
      "DeltaEpoch      " ++ pyStr md.DeltaEpoch,
      "MinTime         " ++ pyStr md.MinTime,
      "MaxTime         " ++ pyStr md.MaxTime,
      "MinHeight       " ++ pyStr md.MinHeight,
      "MaxHeight       " ++ pyStr md.MaxHeight,
      "",
      "# The coefficients are stored in a file obtained by appending \".cof\" to",
      "# the name of this file.  The coefficients were obtained from "
        ++ upper_name ++ ".COF",
      "# in the geomag70 distribution.",
      "ID              " ++ id_ ]

/-- `line.split(None, 1)`: first whitespace-run-delimited token and the
remainder (with its leading whitespace consumed); `none` when there are
fewer than two parts, in which case the tuple unpacking in `MetaData.load`
raises `ValueError`. -/
def pySplitOnce (cs : List Char) : Option (List Char × List Char) :=
  let cs := cs.dropWhile wsChar
  let name := cs.takeWhile (fun c => !(wsChar c))
  let rest := (cs.dropWhile (fun c => !(wsChar c))).dropWhile wsChar
  if name = [] ∨ rest = [] then none else some (name, rest)

/-- Outcome of one `setattr` in the `MetaData.load` field loop. -/
inductive SetFieldResult where
  | unknown
  | failed (e : Err)
  | done (md : MetaData)

/-- One field assignment of `MetaData.load`:
`setattr(self, name, field_type(value))` with `field_type` looked up from
the type hints (`int` for integer fields, `str` otherwise).  Unknown names
and names of methods are warned about and skipped (`unknown`); the class
attributes `Type`, `ByteOrder` and `_DATEFMT` are assigned by the source
but are not dataclass fields and nothing reads them back, so their
assignment is observationally a skip. -/
def MetaData.setField (md : MetaData) (name value : String) : SetFieldResult :=
  let asInt : (Int → MetaData) → SetFieldResult := fun upd =>
    match pyInt value with
    | none => .failed .valueErr
    | some i => .done (upd i)
  match name with
  | "Name" => .done { md with Name := value }
  | "Description" => .done { md with Description := value }
  | "URL" => .done { md with URL := value }
  | "Publisher" => .done { md with Publisher := value }
  | "ReleaseDate" => .done { md with ReleaseDate := value }
  | "DataCutOff" => .done { md with DataCutOff := value }
  | "ConversionDate" => .done { md with ConversionDate := value }
  | "DataVersion" => asInt (fun i => { md with DataVersion := i })
  | "Radius" => asInt (fun i => { md with Radius := i })
  | "NumModels" => asInt (fun i => { md with NumModels := i })
  | "Epoch" => asInt (fun i => { md with Epoch := i })
  | "DeltaEpoch" => asInt (fun i => { md with DeltaEpoch := i })
  | "MinTime" => asInt (fun i => { md with MinTime := i })
  | "MaxTime" => asInt (fun i => { md with MaxTime := i })
  | "MinHeight" => asInt (fun i => { md with MinHeight := i })
  | "MaxHeight" => asInt (fun i => { md with MaxHeight := i })
  | "NumConstants" => asInt (fun i => { md with NumConstants := i })
  | "Normalization" => asInt (fun i => { md with Normalization := i })
  | "ID" => .done { md with ID := value }
  | "N" => asInt (fun i => { md with N := i })
  | "M" => asInt (fun i => { md with M := i })
  | "FORMAT_VERSION" => asInt (fun i => { md with FORMAT_VERSION := i })
  | _ => .unknown

/-- The field loop of `MetaData.load` (`wmmf.py` lines 76–91): cut each
line at its first `#`, strip, skip blanks, split into name and value, and
assign with type coercion. -/
def MetaData.loadFields : MetaData → List String → Except Err MetaData
  | md, [] => .ok md
  | md, line :: rest =>
    let noComment := line.toList.takeWhile (fun c => c ≠ '#')
    let stripped := stripChars noComment
    if stripped = [] then loadFields md rest
    else
      match pySplitOnce stripped with
      | none => .error .valueErr
      | some (name, value) =>
        match md.setField (String.mk name) (String.mk value) with
        | .unknown => loadFields md rest
        | .failed e => .error e
        | .done md' => loadFields md' rest

/-- `MetaData.load` (`wmmf.py` lines 65–91) over the file's lines: the
first line must right-strip to `WMMF-1` or `WMMF-2`, which sets
`FORMAT_VERSION` via `int(format_[-1])`; then the field loop runs. -/
def MetaData.load (md : MetaData) (lines : List String) : Except Err MetaData :=
  match lines with
  | [] => .error .stopIter
  | line :: rest =>
    let format_ := String.mk (rstripChars line.toList)
    if format_ ≠ "WMMF-1" ∧ format_ ≠ "WMMF-2" then .error .runtimeErr
    else
      match pyInt (String.mk (lastN 1 format_.toList)) with
      | none => .error .valueErr
      | some v => loadFields { md with FORMAT_VERSION := v } rest

/-! ## `WmmData` (the binary coefficient codec) -/

/-- `WmmData`: metadata plus the ordered coefficient mapping (year key or
`"rate"` to coefficient set). -/
structure WmmData where
  metadata : MetaData
  coeffs : List (String × SphCoeffSet)

/-- `WmmData._load_sph_coeff_set` (`wmmf.py` lines 214–229): read `(n, m)`,
then the packed `C` and `S` blocks, and scatter them into zero-initialized
dense matrices.  Counts are computed with Python floor division; streams
whose stored dimensions are negative make `np.zeros`/`np.fromfile`
misbehave in the source and are mapped to an error here (no such stream is
produced by the writer or used by any claim). -/
def WmmData.load_sph_coeff_set (s : List BinTok) :
    Except Err (SphCoeffSet × List BinTok) := do
  let (n, m, s) ← readInts2 s
  if n < 0 ∨ m < 0 then throw .valueErr
  else
    let nn := n.toNat
    let mm := m.toNat
    let nc : Int := ((m + 1) * (2 * n - m + 2)).fdiv 2
    let (cdata, s) ← readFloats nc.toNat s
    let C := unpackC nn mm cdata
    let nc2 : Int := (m * (2 * n - m + 1)).fdiv 2
    let (sdata, s) ← readFloats nc2.toNat s
    let S := unpackS nn mm sdata
    return (⟨C, S⟩, s)

/-- The read loop of `WmmData._load_sph_coeffs`: one coefficient set per
key, consuming the stream left to right. -/
def WmmData.load_sets :
    List String → List BinTok → Except Err (List (String × SphCoeffSet) × List BinTok)
  | [], s => .ok ([], s)
  | k :: ks, s => do
    let (cs, s') ← WmmData.load_sph_coeff_set s
    let (rest, s'') ← WmmData.load_sets ks s'
    return ((k, cs) :: rest, s'')

/-- `WmmData._load_sph_coeffs` (`wmmf.py` lines 231–247): compute the year
list, check the stored 8-byte id against `metadata.ID`, then read one set
per year and one `rate` set. -/
def WmmData.load_sph_coeffs (md : MetaData) (cof : CofFile) :
    Except Err (List (String × SphCoeffSet)) := do
  let years ← md.get_years
  if cof.id ≠ md.ID then throw .runtimeErr
  else
    let (data, _) ← WmmData.load_sets (years.map pyStr ++ ["rate"]) cof.toks
    return data

/-- `WmmData._check` (`wmmf.py` lines 206–212): pop the last key (an empty
mapping raises `IndexError`), require it to be `"rate"`, and require the
remaining keys to be the stringified metadata years. -/
def WmmData.check (w : WmmData) : Except Err Unit :=
  let years := w.coeffs.map Prod.fst
  match years.getLast? with
  | none => .error .indexErr
  | some rate =>
    if rate ≠ "rate" then .error .runtimeErr
    else
      match w.metadata.get_years with
      | .error e => .error e
      | .ok ys =>
        if years.dropLast ≠ ys.map pyStr then .error .runtimeErr else .ok ()

/-- `WmmData.from_metadata_and_coeffs` (`wmmf.py` lines 189–196). -/
def WmmData.from_metadata_and_coeffs (md : MetaData)
    (coeffs : List (String × SphCoeffSet)) : Except Err WmmData :=
  let w : WmmData := ⟨md, coeffs⟩
  match w.check with
  | .ok _ => .ok w
  | .error e => .error e

/-- `WmmData.load` (`wmmf.py` lines 249–256) over a text file (as lines)
and its companion binary file: a fresh `WmmData()` holds a default
`MetaData()`, which `load` fills from the text before reading the binary
coefficients and validating. -/
def WmmData.load (textLines : List String) (cof : CofFile) : Except Err WmmData := do
  let md ← ({} : MetaData).load textLines
  let coeffs ← WmmData.load_sph_coeffs md cof
  let w : WmmData := ⟨md, coeffs⟩
  match w.check with
  | .error e => .error e
  | .ok _ => return w

/-! ### The write path -/

/-- `np.abs` on one value (spelled out so that it evaluates by kernel
reduction; it agrees with `|·|` on ℚ). -/
def ratAbs (q : ℚ) : ℚ := if q < 0 then -q else q

/-- Column sums of `M = np.abs(C) + np.abs(S)`: `np.sum(M, 0)` at column
`j` (summing over axis 0, the degree axis). -/
def colSum (cs : SphCoeffSet) (j : Nat) : ℚ :=
  qSum ((List.range cs.C.rows).map
    (fun i => qAdd (ratAbs (cs.C.entry i j)) (ratAbs (cs.S.entry i j))))

/-- Row sums of `M = np.abs(C) + np.abs(S)`: `np.sum(M, 1)` at row `i`
(summing over axis 1, the order axis). -/
def rowSum (cs : SphCoeffSet) (i : Nat) : ℚ :=
  qSum ((List.range cs.C.cols).map
    (fun j => qAdd (ratAbs (cs.C.entry i j)) (ratAbs (cs.S.entry i j))))

/-- `np.where(np.sum(M, 0) > 0)[0][-1]`: the last column index with a
positive sum, `none` when there is none (indexing `[-1]` then raises
`IndexError`). -/
def lastNonzeroCol (cs : SphCoeffSet) : Option Nat :=
  ((List.range cs.C.cols).filter (fun j => decide (0 < colSum cs j))).getLast?

/-- `np.where(np.sum(M, 1) > 0)[0][-1]`: the last row index with a
positive sum. -/
def lastNonzeroRow (cs : SphCoeffSet) : Option Nat :=
  ((List.range cs.C.rows).filter (fun i => decide (0 < rowSum cs i))).getLast?

/-- `WmmData._save_sph_coeff_set` (`wmmf.py` lines 258–291) as the list of
scalars it writes.  `coeffs.C.ndim != 2` cannot occur in this model, where
arrays are 2-d by construction.  Note the effective-size computation of
the source: `n` is taken from the axis-0 sums (indexed by **order**) and
`m` from the axis-1 sums (indexed by **degree**). -/
def WmmData.save_sph_coeff_set (coeffs : SphCoeffSet) : Except Err (List BinTok) :=
  if coeffs.C.rows ≠ coeffs.S.rows ∨ coeffs.C.cols ≠ coeffs.S.cols then
    .error .valueErr
  else
    let n : Int := (coeffs.C.rows : Int) - 1
    let m : Int := (coeffs.C.cols : Int) - 1
    if m > n then .error .typeErr
    else
      match lastNonzeroCol coeffs with
      | none => .error .indexErr
      | some n' =>
        match lastNonzeroRow coeffs with
        | none => .error .indexErr
        | some m' =>
          let m' := if m' > n' then n' else m'
          -- struct.pack('<ii', n, m) requires int32-range values
          if 2 ^ 31 ≤ n' ∨ 2 ^ 31 ≤ m' then .error .structErr
          else
            .ok ([.int n', .int m'] ++ (packC coeffs.C n' m').map .flt
                  ++ (packS coeffs.S n' m').map .flt)

/-- File-system effects of a save: the metadata text file and the binary
coefficient file, each either complete, partial, or created-but-empty. -/
inductive WriteEvent where
  | textFile (lines : List String)
  | textFileEmpty
  | binFile (cof : CofFile)
  | binFilePartial (cof : CofFile)
  deriving DecidableEq

/-- `MetaData.save` (`wmmf.py` lines 167–169): `open(filename, 'w')`
truncates the file before `str(self)` is evaluated, so a rendering error
still leaves an empty file behind. -/
def MetaData.save (md : MetaData) : List WriteEvent × Option Err :=
  match md.render with
  | .ok lines => ([.textFile lines], none)
  | .error e => ([.textFileEmpty], some e)

/-- The write loop of `WmmData._save_sph_coeffs`: pack each set in mapping
order, keeping what was already written when a set fails. -/
def WmmData.save_sets :
    List (String × SphCoeffSet) → List BinTok → List BinTok × Option Err
  | [], acc => (acc, none)
  | (_, cs) :: rest, acc =>
    match WmmData.save_sph_coeff_set cs with
    | .error e => (acc, some e)
    | .ok toks => WmmData.save_sets rest (acc ++ toks)

/-- `WmmData._save_sph_coeffs` (`wmmf.py` lines 293–302): check the id
length (before the file is opened), then write the id and each packed
set. -/
def WmmData.save_sph_coeffs (w : WmmData) : List WriteEvent × Option Err :=
  let id_ := w.metadata.get_id
  if id_.length ≠ 8 then ([], some .valueErr)
  else
    match WmmData.save_sets w.coeffs [] with
    | (toks, none) => ([.binFile ⟨id_, toks⟩], none)
    | (toks, some e) => ([.binFilePartial ⟨id_, toks⟩], some e)

/-- Pre-existing files at the save destination. -/
structure SaveDest where
  textExists : Bool
  binExists : Bool

/-- `WmmData.save` (`wmmf.py` lines 304–320): unless `force` is set, check
that neither the text file nor the binary file exists (in that order,
before writing anything), then write the metadata text and the binary
coefficients. -/
def WmmData.save (w : WmmData) (dest : SaveDest) (force : Bool) :
    List WriteEvent × Option Err :=
  if !force && dest.textExists then ([], some .runtimeErr)
  else if !force && dest.binExists then ([], some .runtimeErr)
  else
    match w.metadata.save with
    | (ev1, some e) => (ev1, some e)
    | (ev1, none) =>
      let (ev2, e2) := w.save_sph_coeffs
      (ev1 ++ ev2, e2)

/-! ## The IGRF text importer -/

/-- `header.split()`: whitespace split, dropping empty parts. -/
def pySplitWs (cs : List Char) : List String :=
  ((cs.splitOnP wsChar).filter (· ≠ [])).map String.mk

/-- `float(item)` over a list, failing on the first bad literal. -/
def parseFloats : List String → Except Err (List ℚ)
  | [] => .ok []
  | s :: rest =>
    match pyFloat s with
    | none => .error .valueErr
    | some q => do
      let qs ← parseFloats rest
      return q :: qs

/-- `_metadata_from_txt_header` (`wmmf.py` lines 323–345).  The header must
start with the tokens `g/h n m`, and its **last** token must contain a `-`
(the rate column of an IGRF header is labelled with a year range such as
`2020-25`).  The year labels are the tokens in between; their spacing must
be uniform (`max(dyears)` on an empty list, i.e. fewer than two years,
raises `ValueError`).  `ConversionDate` is the import date, passed in as
`today` since the model has no clock. -/
def metadata_from_txt_header (today : String) (header : String) :
    Except Err MetaData := do
  let parts := pySplitWs header.toList
  if parts.take 3 ≠ ["g/h", "n", "m"] then throw .valueErr
  else if !(((parts.getLast?).getD "").toList.contains '-') then throw .valueErr
  else do
    let years ← parseFloats ((parts.drop 3).dropLast)
    let dyears := ((years.drop 1).zip years.dropLast).map (fun p => qSub p.2 p.1)
    match pyMax dyears, pyMin dyears with
    | none, _ => throw .valueErr
    | _, none => throw .valueErr
    | some mx, some mn =>
      if mx ≠ mn then throw .runtimeErr
      else
        let delta := pyTrunc (qSub (years.getD 1 0) (years.headD 0))
        return { ({} : MetaData) with
          ConversionDate := today
          NumModels := (years.length : Int)
          Epoch := pyTrunc (years.headD 0)
          DeltaEpoch := delta
          MinTime := pyTrunc (years.headD 0)
          MaxTime := pyTrunc (years.getLastD 0) + delta }

/-- The header scan of `import_igrf_txt` (`wmmf.py` lines 368–377): skip
`#` comments, stop at the first line starting with `g/h`, silently skip
anything else; no header at all is a fatal `RuntimeError`. -/
def findHeader : List String → Except Err (String × List String)
  | [] => .error .runtimeErr
  | line :: rest =>
    if pyStartsWith line "#" then findHeader rest
    else if pyStartsWith line "g/h" then .ok (line, rest)
    else findHeader rest

/-- One record of the IGRF coefficient table: type byte (`dtype 'S1'`
keeps the first byte of the token), degree, order, one value per year
column, and the trailing rate value. -/
structure IgrfRow where
  typ : Char
  n : Nat
  m : Nat
  vals : List ℚ
  rate : ℚ

/-- One line of `np.loadtxt` with the importer's dtype (`wmmf.py` lines
380–389): cut at `#`, split on whitespace, skip blank lines, require
exactly `3 + ny + 1` columns, and convert each field.  Negative degrees
or orders (which `numpy` fancy indexing would wrap around) are rejected
here; IGRF records are nonnegative and no claim uses them. -/
def parseIgrfRow (ny : Nat) (line : String) : Except Err (Option IgrfRow) :=
  let noComment := line.toList.takeWhile (fun c => c ≠ '#')
  let toks := pySplitWs noComment
  match toks with
  | [] => .ok none
  | _ =>
    if toks.length ≠ 3 + ny + 1 then .error .valueErr
    else do
      let typ := ((toks.headD "").toList.headD ' ')
      let nv ← match pyInt (toks.getD 1 "") with
        | none => throw Err.valueErr
        | some i => pure i
      let mv ← match pyInt (toks.getD 2 "") with
        | none => throw Err.valueErr
        | some i => pure i
      if nv < 0 ∨ mv < 0 then throw Err.valueErr
      else do
        let vals ← parseFloats ((toks.drop 3).take ny)
        let rate ← match pyFloat ((toks.getLast?).getD "") with
          | none => throw Err.valueErr
          | some q => pure q
        return some ⟨typ, nv.toNat, mv.toNat, vals, rate⟩

/-- One scalar assignment `A[d, o] = v` of a `numpy` fancy-index scatter. -/
def npAssign (f : Nat → Nat → ℚ) (d o : Nat) (v : ℚ) : Nat → Nat → ℚ :=
  fun d' o' => if d' = d ∧ o' = o then v else f d' o'

/-- `A = np.zeros((nmax+1, mmax+1)); A[rows['n'], rows['m']] = values`:
scatter one value per record into a zero matrix. -/
def scatterRows (nmax mmax : Nat) (rows : List IgrfRow) (get : IgrfRow → ℚ) : Mtx :=
  ⟨nmax + 1, mmax + 1,
    rows.foldl (fun f r => npAssign f r.n r.m (get r)) (fun _ _ => 0)⟩

/-- `import_igrf_txt` (`wmmf.py` lines 348–417) from the header scan
onward, over the file's lines.  The URL/filename handling is outside the
model; `name` is the filename stem with the trailing `coeffs` stripped
(line 374) and `today` is the import date. -/
def import_igrf_lines (today name : String) (lines : List String) :
    Except Err WmmData := do
  let (header, rest) ← findHeader lines
  let md0 ← metadata_from_txt_header today header
  let md := { md0 with Name := name }
  let years ← md.get_years
  let rowOpts ← rest.mapM (parseIgrfRow years.length)
  let rows := rowOpts.filterMap id
  match rows with
  | [] => throw Err.valueErr   -- np.max of an empty record array
  | _ => do
    let nmax := (rows.map (·.n)).foldl Nat.max 0
    let mmax := (rows.map (·.m)).foldl Nat.max 0
    let g := rows.filter (fun r => r.typ == 'g')
    let h := rows.filter (fun r => r.typ == 'h')
    let data := years.enum.map (fun ky =>
      (pyStr ky.2,
       SphCoeffSet.mk (scatterRows nmax mmax g (fun r => r.vals.getD ky.1 0))
                      (scatterRows nmax mmax h (fun r => r.vals.getD ky.1 0))))
    let data := data ++
      [("rate", SphCoeffSet.mk (scatterRows nmax mmax g (·.rate))
                               (scatterRows nmax mmax h (·.rate)))]
    WmmData.from_metadata_and_coeffs md data

/-! ## Concrete data used by witnesses and counterexamples -/

/-- Concrete witness matrices for C1. -/
def wC1C : Mtx := ⟨3, 2, fun d o => if o ≤ d then ((d * 2 + o + 1 : Nat) : ℚ) else 0⟩

/-- Concrete witness matrices for C1 (sine side). -/
def wC1S : Mtx := ⟨3, 2, fun d o => if 1 ≤ o ∧ o ≤ d then ((d + o : Nat) : ℚ) else 0⟩

/-- A `(3, 1)` coefficient set (degree bound 2, order bound 0) whose only
nonzero coefficient is `C[2, 0] = 1`. -/
def csDeg2 : SphCoeffSet :=
  ⟨⟨3, 1, fun d o => if d = 2 ∧ o = 0 then 1 else 0⟩, ⟨3, 1, fun _ _ => 0⟩⟩

/-- A model whose only coefficient set is entirely zero, with a valid
8-character id: used to show the `IndexError` is reachable from `save`. -/
def zeroModel : WmmData :=
  ⟨{ ID := "IGRF12-A", Radius := 1, MaxHeight := 600, MinHeight := -1 },
   [("1900", ⟨⟨1, 1, fun _ _ => 0⟩, ⟨1, 1, fun _ _ => 0⟩⟩)]⟩

/-- Metadata for the C5 witness: two epochs, 1900 and 1905. -/
def mdC5 : MetaData := { NumModels := 2, Epoch := 1900, DeltaEpoch := 5 }

/-- A trivial all-default coefficient set for key-shape witnesses. -/
def csTriv : SphCoeffSet := ⟨⟨1, 1, fun _ _ => 1⟩, ⟨1, 1, fun _ _ => 0⟩⟩

/-- A model with a 7-character id (`ID = "ABCDEFG"`), small field values,
one coefficient set: the C6 scenario. -/
def wC6 : WmmData :=
  ⟨{ ID := "ABCDEFG", Radius := 1, MaxHeight := 600, MinHeight := -1 },
   [("1900", csTriv), ("rate", csTriv)]⟩

/-- Metadata/binary pair with mismatching ids for the C8 witness. -/
def mdC8 : MetaData := { ID := "IGRF12-A" }

/-- The C4 scenario with the header's trailing label written as the IGRF
range label `1905-10` (containing `-`), which the header check accepts. -/
def importC4 : Except Err WmmData :=
  import_igrf_lines "2026-10-12" "igrf12"
    ["g/h n m 1900 1905 1905-10", "g 1 0 -31543 -31464 10.3"]

/-- A value string that survives the metadata text round trip: nonempty,
free of `#`, `\n` and `\r`, and not starting or ending with whitespace
(otherwise the line parser of `MetaData.load` strips or truncates it). -/
def benignStr (s : String) : Prop :=
  s.toList ≠ [] ∧
  (∀ c ∈ s.toList, c ≠ '#' ∧ c ≠ '\n' ∧ c ≠ '\r') ∧
  wsChar (s.toList.headD 'x') = false ∧ wsChar (s.toList.getLastD 'x') = false

instance (s : String) : Decidable (benignStr s) := by
  unfold benignStr; infer_instance

/-- The lines `MetaData.__str__` produces when `Description` is not the
default IGRF text (so that no generation suffix is appended). -/
def renderedLines (md : MetaData) : List String :=
  [ "WMMF-" ++ pyStr md.FORMAT_VERSION,
    "# A World Magnetic Model (Format " ++ pyStr md.FORMAT_VERSION
      ++ ") file.  For documentation on the",
    "# format of this file see",
    "# http://geographiclib.sf.net/html/magnetic.html#magneticformat",
    "Name            " ++ md.Name,
    "Description     " ++ md.Description,
    "URL             " ++ md.URL,
    "Publisher       " ++ md.Publisher,
    "ReleaseDate     " ++ md.ReleaseDate,
    "DataCutOff      " ++ md.DataCutOff,
    "ConversionDate  " ++ md.ConversionDate,
    "DataVersion     " ++ pyStr md.DataVersion,
    "Radius          " ++ pyStr md.Radius,
    "NumModels       " ++ pyStr md.NumModels,
    "Epoch           " ++ pyStr md.Epoch,
    "DeltaEpoch      " ++ pyStr md.DeltaEpoch,
    "MinTime         " ++ pyStr md.MinTime,
    "MaxTime         " ++ pyStr md.MaxTime,
    "MinHeight       " ++ pyStr md.MinHeight,
    "MaxHeight       " ++ pyStr md.MaxHeight,
    "",
    "# The coefficients are stored in a file obtained by appending \".cof\" to",
    "# the name of this file.  The coefficients were obtained from "
      ++ pyToUpper md.Name ++ ".COF",
    "# in the geomag70 distribution.",
    "ID              " ++ md.get_id ]

/-- `save` to a fresh destination followed by `load` of the two files it
wrote; `none` when the save did not produce exactly the text/binary
pair. -/
def saveThenLoad (w : WmmData) : Option (Except Err WmmData) :=
  match WmmData.save w ⟨false, false⟩ false with
  | ([WriteEvent.textFile lines, WriteEvent.binFile cof], none) =>
    some (WmmData.load lines cof)
  | _ => none

/-- The C3 counterexample model: a valid model (consistent keys, derivable
8-character id `IGRF12-A`) whose `Description` is the default IGRF text
and whose `ID` field is the default `N/A`. -/
def wC3bad : WmmData :=
  ⟨{ Name := "igrf12", NumModels := 1, Radius := 1, MaxHeight := 600,
     MinHeight := -1 },
   [("1900", csTriv), ("rate", csTriv)]⟩

/-- The C3 witness model: explicit 8-character id, non-default
description, benign field values, square coefficient sets with nonzero
corner. -/
def wC3good : WmmData :=
  ⟨{ Name := "igrf12", Description := "Custom model", ID := "IGRF12-A",
     NumModels := 1, Radius := 1, MaxHeight := 600, MinHeight := -1 },
   [("1900", csTriv), ("rate", csTriv)]⟩

/-- A coefficient set the write path serializes without loss: square
matrices of equal int32-ranged size, triangular, with a vanishing order-0
sine column and a nonzero cosine corner (so the effective-size trim keeps
the full matrix even though the source swaps its two axes). -/
def goodSet (cs : SphCoeffSet) : Prop :=
  1 ≤ cs.C.rows ∧ cs.C.cols = cs.C.rows ∧ cs.S.rows = cs.C.rows ∧
  cs.S.cols = cs.C.rows ∧ cs.C.rows ≤ 2 ^ 31 ∧
  triangular cs.C ∧ triangular cs.S ∧ sColZero cs.S ∧
  cs.C.entry (cs.C.rows - 1) (cs.C.rows - 1) ≠ 0

instance (cs : SphCoeffSet) : Decidable (goodSet cs) := by
  unfold goodSet; infer_instance

/-! ## Packing-engine lemmas -/

theorem qAdd_eq_add (a b : ℚ) : qAdd a b = a + b := by
  unfold qAdd
  rw [Rat.add_def, Rat.normalize_eq_mkRat]

theorem qSub_eq_sub (a b : ℚ) : qSub a b = a - b := by
  rw [qSub, qAdd_eq_add, sub_eq_add_neg]

theorem qSum_eq_sum (l : List ℚ) : qSum l = l.sum := by
  induction l with
  | nil => rfl
  | cons x xs ih =>
    rw [show qSum (x :: xs) = qAdd x (qSum xs) from rfl, qAdd_eq_add, ih,
      List.sum_cons]

theorem mem_triuIndices {a b i j : Nat} :
    (i, j) ∈ triuIndices a b ↔ i < a ∧ i ≤ j ∧ j < b := by
  simp only [triuIndices, List.mem_flatMap, List.mem_map, List.mem_range]
  constructor
  · rintro ⟨x, hx, k, hk, hxy⟩
    cases hxy
    omega
  · rintro ⟨h1, h2, h3⟩
    exact ⟨i, h1, j - i, by omega, by rw [Nat.add_sub_cancel' h2]⟩

theorem triuIndices_succ (a b : Nat) :
    triuIndices (a + 1) b =
      triuIndices a b ++ (List.range (b - a)).map (fun k => (a, a + k)) := by
  simp [triuIndices, List.range_succ]

theorem triuIndices_nodup (a b : Nat) : (triuIndices a b).Nodup := by
  induction a with
  | zero => simp [triuIndices]
  | succ a ih =>
    rw [triuIndices_succ, List.nodup_append]
    refine ⟨ih, ?_, ?_⟩
    · exact (List.nodup_range _).map (fun k₁ k₂ h => by
        simpa using congrArg Prod.snd h)
    · intro p hp hp'
      obtain ⟨k, _, rfl⟩ := List.mem_map.mp hp'
      obtain ⟨h1, -, -⟩ := mem_triuIndices.mp hp
      omega

theorem length_triuIndices_int (a b : Nat) (h : a ≤ b) :
    2 * ((triuIndices a b).length : Int) = a * (2 * b - a + 1) := by
  induction a with
  | zero => simp [triuIndices]
  | succ a ih =>
    rw [triuIndices_succ, List.length_append, List.length_map, List.length_range]
    have ha : (a : Nat) ≤ b := Nat.le_of_succ_le h
    have ih' := ih ha
    push_cast [Nat.cast_sub ha]
    push_cast at ih'
    linear_combination ih'

theorem scatterT_append (f : Nat → Nat → ℚ) (l₁ l₂ : List ((Nat × Nat) × ℚ)) :
    scatterT f (l₁ ++ l₂) = scatterT (scatterT f l₁) l₂ :=
  List.foldl_append _ _ _ _

theorem scatterT_of_not_hit (l : List ((Nat × Nat) × ℚ)) (f : Nat → Nat → ℚ)
    (d o : Nat) (h : ∀ x ∈ l, ¬(d = x.1.2 ∧ o = x.1.1)) :
    scatterT f l d o = f d o := by
  induction l generalizing f with
  | nil => rfl
  | cons x l ih =>
    have hx := h x (List.mem_cons_self _ _)
    rw [show scatterT f (x :: l) = scatterT (assignT f x.1 x.2) l from rfl,
      ih _ (fun y hy => h y (List.mem_cons_of_mem _ hy)), assignT, if_neg hx]

theorem scatterT_hit (f : Nat → Nat → ℚ) (l₁ l₂ : List ((Nat × Nat) × ℚ))
    (i j : Nat) (v : ℚ) (h : ∀ x ∈ l₂, ¬(j = x.1.2 ∧ i = x.1.1)) :
    scatterT f (l₁ ++ ((i, j), v) :: l₂) j i = v := by
  rw [scatterT_append,
    show scatterT (scatterT f l₁) (((i, j), v) :: l₂)
      = scatterT (assignT (scatterT f l₁) (i, j) v) l₂ from rfl,
    scatterT_of_not_hit _ _ _ _ h, assignT, if_pos ⟨rfl, rfl⟩]

theorem zip_self_map {α β : Type} (l : List α) (g : α → β) :
    l.zip (l.map g) = l.map (fun x => (x, g x)) := by
  induction l with
  | nil => rfl
  | cons x l ih => simp [ih]

/-- Scattering the gather of `A` through a duplicate-free pair list puts
`A`'s entry at every covered position and zero elsewhere. -/
theorem scatter_gather_of_nodup (A : Mtx) (l : List (Nat × Nat)) (hl : l.Nodup)
    (d o : Nat) :
    scatterT (fun _ _ => 0) (l.map (fun p => (p, A.entry p.2 p.1))) d o
      = if (o, d) ∈ l then A.entry d o else 0 := by
  by_cases h : (o, d) ∈ l
  · rw [if_pos h]
    obtain ⟨l₁, l₂, rfl⟩ := List.append_of_mem h
    have hnd : (o, d) ∉ l₂ := by
      have := hl.sublist (List.sublist_append_right l₁ _)
      exact (List.nodup_cons.mp this).1
    rw [List.map_append, List.map_cons]
    exact scatterT_hit _ _ _ o d _ (by
      rintro x hx ⟨h1, h2⟩
      obtain ⟨⟨pi, pj⟩, hp, rfl⟩ := List.mem_map.mp hx
      simp only at h1 h2
      subst h1 h2
      exact hnd hp)
  · rw [if_neg h]
    exact scatterT_of_not_hit _ _ _ _ (by
      rintro x hx ⟨h1, h2⟩
      obtain ⟨⟨pi, pj⟩, hp, rfl⟩ := List.mem_map.mp hx
      simp only at h1 h2
      subst h1 h2
      exact h hp)

theorem unpackC_entry (A : Mtx) (n m d o : Nat) :
    (unpackC n m (packC A n m)).entry d o
      = if o < m + 1 ∧ o ≤ d ∧ d < n + 1 then A.entry d o else 0 := by
  show scatterT _ ((triuIndices (m + 1) (n + 1)).zip
    ((triuIndices (m + 1) (n + 1)).map _)) d o = _
  rw [zip_self_map, scatter_gather_of_nodup _ _ (triuIndices_nodup _ _)]
  exact if_congr mem_triuIndices rfl rfl

theorem unpackS_entry (A : Mtx) (n m d o : Nat) :
    (unpackS n m (packS A n m)).entry d o
      = if 1 ≤ o ∧ o < m + 1 ∧ o ≤ d ∧ d < n + 1 then A.entry d o else 0 := by
  show scatterT _ (((triuIndices m n).map (fun p => (p.1 + 1, p.2 + 1))).zip
    (((triuIndices m n).map (fun p => (p.1 + 1, p.2 + 1))).map _)) d o = _
  rw [zip_self_map, scatter_gather_of_nodup _ _
    ((triuIndices_nodup m n).map (fun p q h => by
      cases p; cases q; simpa [Prod.ext_iff] using h))]
  refine if_congr ⟨?_, ?_⟩ rfl rfl
  · intro h
    obtain ⟨⟨i, j⟩, hp, he⟩ := List.mem_map.mp h
    obtain ⟨h1, h2, h3⟩ := mem_triuIndices.mp hp
    cases he
    omega
  · rintro ⟨h0, h1, h2, h3⟩
    exact List.mem_map.mpr ⟨(o - 1, d - 1),
      mem_triuIndices.mpr ⟨by omega, by omega, by omega⟩, by simp; omega⟩

theorem length_packC (C : Mtx) (N M : Nat) (h : M ≤ N) :
    (packC C N M).length = (M + 1) * (2 * N - M + 2) / 2 := by
  have hi := length_triuIndices_int (M + 1) (N + 1) (by omega)
  have hc : (2 * ((triuIndices (M + 1) (N + 1)).length : Int))
      = (((M + 1) * (2 * N - M + 2) : Nat) : Int) := by
    push_cast [Nat.cast_sub (show M ≤ 2 * N by omega)]
    push_cast at hi
    linear_combination hi
  have hn : 2 * (triuIndices (M + 1) (N + 1)).length
      = (M + 1) * (2 * N - M + 2) := by exact_mod_cast hc
  have : (packC C N M).length = (triuIndices (M + 1) (N + 1)).length := by
    simp [packC, gatherT]
  rw [this, ← hn, Nat.mul_div_cancel_left _ (by norm_num)]

theorem length_packS (S : Mtx) (N M : Nat) (h : M ≤ N) :
    (packS S N M).length = M * (2 * N - M + 1) / 2 := by
  have hi := length_triuIndices_int M N h
  have hc : (2 * ((triuIndices M N).length : Int))
      = ((M * (2 * N - M + 1) : Nat) : Int) := by
    push_cast [Nat.cast_sub (show M ≤ 2 * N by omega)]
    push_cast at hi
    linear_combination hi
  have hn : 2 * (triuIndices M N).length = M * (2 * N - M + 1) := by
    exact_mod_cast hc
  have : (packS S N M).length = (triuIndices M N).length := by
    simp [packS, gatherT]
  rw [this, ← hn, Nat.mul_div_cancel_left _ (by norm_num)]

/-- C1: for dense `(N+1) × (M+1)` matrices `C`, `S` with `M ≤ N`, zero
above the diagonal, and zero in column 0 of `S`, packing into the
order-major/degree-minor flat layout (of lengths `(M+1)(2N-M+2)/2` and
`M(2N-M+1)/2`) and unpacking into zero-initialized matrices returns the
original matrices exactly. -/
theorem pack_unpack_roundtrip (N M : Nat) (C S : Mtx) (hMN : M ≤ N)
    (hCr : C.rows = N + 1) (hCc : C.cols = M + 1)
    (hSr : S.rows = N + 1) (hSc : S.cols = M + 1)
    (hCt : triangular C) (hSt : triangular S) (hS0 : sColZero S) :
    (packC C N M).length = (M + 1) * (2 * N - M + 2) / 2 ∧
    (packS S N M).length = M * (2 * N - M + 1) / 2 ∧
    mtxEq (unpackC N M (packC C N M)) C ∧
    mtxEq (unpackS N M (packS S N M)) S := by
  refine ⟨length_packC C N M hMN, length_packS S N M hMN, ?_, ?_⟩
  · refine ⟨hCr.symm, hCc.symm, ?_⟩
    intro d hd o ho
    have hd' : d < N + 1 := hd
    have ho' : o < M + 1 := ho
    rw [unpackC_entry]
    by_cases h : o ≤ d
    · rw [if_pos ⟨ho', h, hd'⟩]
    · rw [if_neg (by omega), (hCt d (by omega) o (by omega) (by omega)).symm]
  · refine ⟨hSr.symm, hSc.symm, ?_⟩
    intro d hd o ho
    have hd' : d < N + 1 := hd
    have ho' : o < M + 1 := ho
    rw [unpackS_entry]
    by_cases h : 1 ≤ o ∧ o ≤ d
    · rw [if_pos ⟨h.1, ho', h.2, hd'⟩]
    · rw [if_neg (by tauto)]
      rcases Nat.lt_or_ge d o with hlt | hge
      · exact (hSt d (by omega) o (by omega) hlt).symm
      · have : o = 0 := by omega
        subst this
        exact (hS0 d (by omega)).symm

theorem pack_unpack_roundtrip_witness :
    (1 ≤ 2 ∧ triangular wC1C ∧ triangular wC1S ∧ sColZero wC1S) ∧
    ((packC wC1C 2 1).length = 5 ∧ (packS wC1S 2 1).length = 2 ∧
      mtxEq (unpackC 2 1 (packC wC1C 2 1)) wC1C ∧
      mtxEq (unpackS 2 1 (packS wC1S 2 1)) wC1S) :=
  ⟨⟨by decide, by decide, by decide, by decide⟩,
    pack_unpack_roundtrip 2 1 wC1C wC1S (by decide) rfl rfl rfl rfl
      (by decide) (by decide) (by decide)⟩

/-! ## The write-path trim (claims C2 and C10) -/

/-- C2 (refuting the claim as stated): on `csDeg2` the write path packs the
trimmed bounds `(n, m) = (0, 0)` — the source takes `n` from the axis-0
sums (indexed by order) and `m` from the axis-1 sums (indexed by degree),
i.e. swapped — so the written block is `[0, 0, C[0,0]] = [0, 0, 0]` and
the nonzero coefficient `C[2, 0] = 1` is outside the packed submatrix
(its value appears nowhere in the output). -/
theorem save_sph_coeff_set_drops_nonzero :
    WmmData.save_sph_coeff_set csDeg2 = .ok [.int 0, .int 0, .flt 0] ∧
      csDeg2.C.entry 2 0 = 1 ∧
      BinTok.flt 1 ∉ [BinTok.int 0, BinTok.int 0, BinTok.flt 0] := by
  decide

/-- C10: a coefficient set that passes the shape checks but is entirely
zero makes the effective-size computation fail with an uncaught
`IndexError` (`np.where(...)[0][-1]` on an empty match), and the error is
reachable from the public `save` path. -/
theorem save_sph_coeff_set_all_zero_index_error :
    (∀ cs : SphCoeffSet,
        cs.C.rows = cs.S.rows → cs.C.cols = cs.S.cols →
        cs.C.cols ≤ cs.C.rows →
        (∀ d < cs.C.rows, ∀ o < cs.C.cols,
          cs.C.entry d o = 0 ∧ cs.S.entry d o = 0) →
        WmmData.save_sph_coeff_set cs = .error .indexErr) ∧
      (WmmData.save zeroModel ⟨false, false⟩ false).2 = some .indexErr := by
  constructor
  · intro cs h1 h2 h3 h4
    have hcol : lastNonzeroCol cs = none := by
      unfold lastNonzeroCol
      have hf : (List.range cs.C.cols).filter
          (fun j => decide (0 < colSum cs j)) = [] := by
        rw [List.filter_eq_nil_iff]
        intro j hj
        have hj' := List.mem_range.mp hj
        have hz : colSum cs j = 0 := by
          unfold colSum
          rw [qSum_eq_sum]
          refine List.sum_eq_zero (fun x hx => ?_)
          obtain ⟨i, hi, rfl⟩ := List.mem_map.mp hx
          have hi' := List.mem_range.mp hi
          rw [(h4 i hi' j hj').1, (h4 i hi' j hj').2, qAdd_eq_add]
          simp [ratAbs]
        simp [hz]
      rw [hf]
      rfl
    unfold WmmData.save_sph_coeff_set
    rw [if_neg (by simp [h1, h2]), if_neg (by omega), hcol]
  · decide

/-! ## The key-sequence invariant (claim C5) -/

theorem check_eq_ok_iff (md : MetaData) (coeffs : List (String × SphCoeffSet))
    (ys : List Int) (hy : md.get_years = .ok ys) :
    WmmData.check ⟨md, coeffs⟩ = .ok () ↔
      coeffs.map Prod.fst = ys.map pyStr ++ ["rate"] := by
  unfold WmmData.check
  simp only
  cases hkl : (coeffs.map Prod.fst).getLast? with
  | none =>
    have hnil : coeffs.map Prod.fst = [] := by
      cases hml : coeffs.map Prod.fst with
      | nil => rfl
      | cons a l =>
        rw [hml] at hkl
        simp [List.getLast?] at hkl
    rw [hnil]
    simp
  | some last =>
    have hne : coeffs.map Prod.fst ≠ [] := by
      intro h
      rw [h] at hkl
      simp [List.getLast?] at hkl
    have hsplit : coeffs.map Prod.fst = (coeffs.map Prod.fst).dropLast ++ [last] := by
      conv_lhs => rw [← List.dropLast_append_getLast hne]
      rw [List.getLast?_eq_getLast _ hne] at hkl
      rw [Option.some.injEq] at hkl
      rw [hkl]
    by_cases hrate : last = "rate"
    · subst hrate
      dsimp only
      rw [if_neg (by simp), hy]
      dsimp only
      constructor
      · intro h
        by_cases hd : (coeffs.map Prod.fst).dropLast = ys.map pyStr
        · rw [hsplit, hd]
        · rw [if_pos hd] at h
          exact absurd h (by simp)
      · intro h
        have hd : (coeffs.map Prod.fst).dropLast = ys.map pyStr := by
          rw [h, List.dropLast_concat]
        rw [if_neg (by simpa using hd)]
    · dsimp only
      rw [if_pos (by simpa using hrate)]
      constructor
      · intro h
        exact absurd h (by simp)
      · intro h
        have : last = "rate" := by
          rw [h] at hkl
          rw [List.getLast?_concat] at hkl
          exact (Option.some.injEq _ _ ▸ hkl).symm
        exact absurd this hrate

/-- C5: constructing a `WmmData` from metadata and a coefficient mapping
fails whenever the ordered key sequence differs from the stringified
metadata years followed by a single trailing `"rate"` key, and on the
matching sequence returns exactly the given data (never a repaired
sequence). -/
theorem from_metadata_and_coeffs_key_invariant (md : MetaData)
    (coeffs : List (String × SphCoeffSet)) (ys : List Int)
    (hy : md.get_years = .ok ys) :
    (coeffs.map Prod.fst ≠ ys.map pyStr ++ ["rate"] →
      ∃ e, WmmData.from_metadata_and_coeffs md coeffs = .error e) ∧
    (coeffs.map Prod.fst = ys.map pyStr ++ ["rate"] →
      WmmData.from_metadata_and_coeffs md coeffs = .ok ⟨md, coeffs⟩) := by
  have hiff := check_eq_ok_iff md coeffs ys hy
  unfold WmmData.from_metadata_and_coeffs
  dsimp only
  constructor
  · intro hne
    cases hc : WmmData.check ⟨md, coeffs⟩ with
    | ok u =>
      cases u
      exact absurd (hiff.mp hc) hne
    | error e => exact ⟨e, rfl⟩
  · intro heq
    have hok := hiff.mpr heq
    cases hc : WmmData.check ⟨md, coeffs⟩ with
    | ok u =>
      cases u
      rfl
    | error e =>
      rw [hc] at hok
      exact absurd hok (by simp)

theorem from_metadata_and_coeffs_key_invariant_witness :
    mdC5.get_years = .ok [1900, 1905] ∧
    (([("1905", csTriv), ("1900", csTriv), ("rate", csTriv)].map Prod.fst
        ≠ [(1900 : Int), 1905].map pyStr ++ ["rate"] →
      ∃ e, WmmData.from_metadata_and_coeffs mdC5
        [("1905", csTriv), ("1900", csTriv), ("rate", csTriv)] = .error e) ∧
    ([("1905", csTriv), ("1900", csTriv), ("rate", csTriv)].map Prod.fst
        = [(1900 : Int), 1905].map pyStr ++ ["rate"] →
      WmmData.from_metadata_and_coeffs mdC5
        [("1905", csTriv), ("1900", csTriv), ("rate", csTriv)]
        = .ok ⟨mdC5, [("1905", csTriv), ("1900", csTriv), ("rate", csTriv)]⟩)) :=
  ⟨by decide,
    from_metadata_and_coeffs_key_invariant mdC5
      [("1905", csTriv), ("1900", csTriv), ("rate", csTriv)] [1900, 1905]
      (by decide)⟩

/-! ## Save-path error handling (claims C6, C7) -/

/-- C7: with `force` unset, `save` checks both destination files before
writing either: if either the text file or the binary file already
exists, it fails with `RuntimeError` and performs no write at all. -/
theorem save_no_overwrite (w : WmmData) (dest : SaveDest)
    (h : dest.textExists = true ∨ dest.binExists = true) :
    WmmData.save w dest false = ([], some Err.runtimeErr) := by
  unfold WmmData.save
  rcases h with h | h
  · rw [if_pos (by simp [h])]
  · by_cases ht : dest.textExists
    · rw [if_pos (by simp [ht])]
    · rw [if_neg (by simp [ht]), if_pos (by simp [h])]

theorem save_no_overwrite_witness :
    ((⟨true, false⟩ : SaveDest).textExists = true ∨
      (⟨true, false⟩ : SaveDest).binExists = true) ∧
    WmmData.save zeroModel ⟨true, false⟩ false = ([], some Err.runtimeErr) :=
  ⟨Or.inl rfl, save_no_overwrite zeroModel ⟨true, false⟩ (Or.inl rfl)⟩

/-- C6 (refuting the claim as stated): saving a model whose derived id is
7 characters long does raise `ValueError`, but only after the metadata
text file has been fully written; only the binary file is untouched. -/
theorem save_short_id_writes_text_file :
    ((WmmData.save wC6 ⟨false, false⟩ false).2 = some Err.valueErr) ∧
    ((WmmData.save wC6 ⟨false, false⟩ false).1.length = 1) ∧
    ((WmmData.save wC6 ⟨false, false⟩ false).1.all
      (fun ev => match ev with | .textFile _ => true | _ => false) = true) := by
  decide

/-- C6 (amended): for every model whose metadata renders and whose derived
id does not have exactly 8 characters, `save` to a fresh destination
raises `ValueError` after writing the metadata text file and before any
byte of the binary file. -/
theorem save_short_id_text_written (w : WmmData) (force : Bool)
    (hr : (w.metadata.render).isOk = true)
    (hid : w.metadata.get_id.length ≠ 8) :
    ∃ lines, w.metadata.render = .ok lines ∧
      WmmData.save w ⟨false, false⟩ force
        = ([WriteEvent.textFile lines], some Err.valueErr) := by
  cases hrl : w.metadata.render with
  | error e => rw [hrl] at hr; exact absurd hr (by simp [Except.isOk, Except.toBool])
  | ok lines =>
    refine ⟨lines, rfl, ?_⟩
    unfold WmmData.save
    rw [if_neg (by simp), if_neg (by simp)]
    unfold MetaData.save
    rw [hrl]
    dsimp only
    unfold WmmData.save_sph_coeffs
    rw [if_pos hid]
    rfl

theorem save_short_id_text_written_witness :
    ((wC6.metadata.render).isOk = true ∧ wC6.metadata.get_id.length ≠ 8) ∧
    ∃ lines, wC6.metadata.render = .ok lines ∧
      WmmData.save wC6 ⟨false, false⟩ false
        = ([WriteEvent.textFile lines], some Err.valueErr) :=
  ⟨⟨by decide, by decide⟩,
    save_short_id_text_written wC6 false (by decide) (by decide)⟩

/-! ## Binary-load id check (claim C8) -/

/-- C8: loading a binary file whose embedded id differs from the
metadata's `ID` always fails, returning no coefficient sets; when the
year list is computable the failure is exactly the id-mismatch
`RuntimeError`. -/
theorem load_sph_coeffs_id_mismatch (md : MetaData) (cof : CofFile)
    (h : cof.id ≠ md.ID) :
    (∃ e, WmmData.load_sph_coeffs md cof = .error e) ∧
    (∀ ys, md.get_years = .ok ys →
      WmmData.load_sph_coeffs md cof = .error .runtimeErr) := by
  constructor
  · cases hg : md.get_years with
    | error e =>
      exact ⟨e, by simp [WmmData.load_sph_coeffs, hg]; rfl⟩
    | ok ys =>
      exact ⟨.runtimeErr, by simp [WmmData.load_sph_coeffs, hg, h]; rfl⟩
  · intro ys hg
    simp [WmmData.load_sph_coeffs, hg, h]
    rfl

theorem load_sph_coeffs_id_mismatch_witness :
    ((⟨"WMM-2020", []⟩ : CofFile).id ≠ mdC8.ID) ∧
    ((∃ e, WmmData.load_sph_coeffs mdC8 ⟨"WMM-2020", []⟩ = .error e) ∧
     (∀ ys, mdC8.get_years = .ok ys →
        WmmData.load_sph_coeffs mdC8 ⟨"WMM-2020", []⟩ = .error .runtimeErr)) :=
  ⟨by decide, load_sph_coeffs_id_mismatch mdC8 ⟨"WMM-2020", []⟩ (by decide)⟩

/-! ## The WMMF format marker (claim C9) -/

/-- C9 (refuting the claim as stated): when the file starts with a blank
line followed by `WMMF-1`, the first non-empty line is a valid marker,
yet `MetaData.load` fails — the marker is read from the first line, not
the first non-empty line. -/
theorem metadata_load_first_line_blank_fails :
    (["", "WMMF-1"].find? (fun l => l ≠ "") = some "WMMF-1") ∧
    MetaData.load {} ["", "WMMF-1"] = .error .runtimeErr := by
  decide

/-- C9 (amended): the format marker is the right-stripped **first** line:
`load` fails with `RuntimeError` when it is neither `WMMF-1` nor
`WMMF-2`, and otherwise sets `FORMAT_VERSION` to 1 or 2 accordingly and
proceeds to the field loop. -/
theorem metadata_load_format_marker (md : MetaData) (l0 : String)
    (rest : List String) :
    (String.mk (rstripChars l0.toList) ≠ "WMMF-1" ∧
        String.mk (rstripChars l0.toList) ≠ "WMMF-2" →
      MetaData.load md (l0 :: rest) = .error .runtimeErr) ∧
    (String.mk (rstripChars l0.toList) = "WMMF-1" →
      MetaData.load md (l0 :: rest)
        = MetaData.loadFields { md with FORMAT_VERSION := 1 } rest) ∧
    (String.mk (rstripChars l0.toList) = "WMMF-2" →
      MetaData.load md (l0 :: rest)
        = MetaData.loadFields { md with FORMAT_VERSION := 2 } rest) := by
  refine ⟨?_, ?_, ?_⟩
  · intro h
    unfold MetaData.load
    dsimp only
    rw [if_pos h]
  · intro h
    unfold MetaData.load
    dsimp only
    rw [if_neg (fun hc => hc.1 h)]
    rw [h]
    rfl
  · intro h
    unfold MetaData.load
    dsimp only
    rw [if_neg (fun hc => hc.2 h)]
    rw [h]
    rfl

theorem metadata_load_format_marker_witness :
    (String.mk (rstripChars ("WMMF-2  ").toList) = "WMMF-2") ∧
    MetaData.load {} ["WMMF-2  "]
      = MetaData.loadFields { ({} : MetaData) with FORMAT_VERSION := 2 } [] :=
  ⟨by decide,
    (metadata_load_format_marker {} "WMMF-2  " []).2.2 (by decide)⟩

/-! ## The IGRF import scenario (claim C4) -/

/-- C4 (refuting the claim as stated): the header `g/h n m 1900 1905 rate`
is rejected with `ValueError` — `_metadata_from_txt_header` requires the
last header token to contain a `-` (the rate column of a real IGRF header
is a year range such as `1905-10`), so the import never yields the
claimed metadata and coefficients. -/
theorem import_igrf_rate_header_fails :
    (import_igrf_lines "2026-10-12" "igrf12"
      ["g/h n m 1900 1905 rate", "g 1 0 -31543 -31464 10.3"]).map (fun _ => ())
      = .error .valueErr := by
  decide

/-- C4 (amended): with the trailing label written as a `-`-containing
range label (`1905-10`), the import of the single row
`g 1 0 -31543 -31464 10.3` succeeds and yields
`Epoch = 1900`, `DeltaEpoch = 5`, `NumModels = 2`, `MaxTime = 1910`,
entries keyed `1900`, `1905`, `rate` with `C[1,0]` equal to `-31543`,
`-31464` and `10.3` respectively, and every `S` matrix zero. -/
theorem import_igrf_dash_header_succeeds :
    (importC4.map (fun w => (w.metadata.Epoch, w.metadata.DeltaEpoch,
        w.metadata.NumModels, w.metadata.MaxTime)) = .ok (1900, 5, 2, 1910)) ∧
    (importC4.map (fun w => w.coeffs.map Prod.fst)
        = .ok ["1900", "1905", "rate"]) ∧
    (importC4.map (fun w => (w.coeffs.lookup "1900").map (fun cs => cs.C.entry 1 0))
        = .ok (some (-31543))) ∧
    (importC4.map (fun w => (w.coeffs.lookup "1905").map (fun cs => cs.C.entry 1 0))
        = .ok (some (-31464))) ∧
    (importC4.map (fun w => (w.coeffs.lookup "rate").map (fun cs => cs.C.entry 1 0))
        = .ok (some (mkRat 103 10))) ∧
    (importC4.map (fun w => w.coeffs.all (fun kv =>
        decide (mtxEq kv.2.S (npZeros 1 0)))) = .ok true) := by
  decide

/-! ## Save-then-load round trip (claim C3) -/

/-- C3 (refuting the claim as stated): `wC3bad` is a valid model (its key
sequence checks out and its derived id `IGRF12-A` has 8 characters), yet
saving and re-loading it changes two metadata fields: `ID` becomes the
derived `"IGRF12-A"` instead of `"N/A"`, and the default `Description`
gains a generation suffix. -/
theorem save_then_load_not_identity :
    WmmData.check wC3bad = .ok () ∧
    wC3bad.metadata.get_id = "IGRF12-A" ∧
    wC3bad.metadata.ID = "N/A" ∧
    wC3bad.metadata.Description = "International Geomagnetic Reference Field" ∧
    (saveThenLoad wC3bad).map (fun r => r.map
        (fun w => (w.metadata.ID, w.metadata.Description)))
      = some (.ok ("IGRF12-A",
          "International Geomagnetic Reference Field 11th Generation")) := by
  decide

/-! ### Decimal strings round-trip -/

theorem digitToChar_facts (d : Nat) (h : d < 10) :
    isDigitChar (digitToChar d) = true ∧ charToDigit (digitToChar d) = d := by
  interval_cases d <;> exact ⟨by decide, by decide⟩

theorem isDigitChar_props (c : Char) (h : isDigitChar c = true) :
    wsChar c = false ∧ c ≠ '#' ∧ c ≠ '-' ∧ c ≠ '+' ∧ c ≠ '\n' ∧ c ≠ '\r' := by
  refine ⟨?_, ?_, ?_, ?_, ?_, ?_⟩ <;>
    first
      | (simp only [wsChar, Bool.decide_or, Bool.or_eq_false_iff, decide_eq_false_iff_not]
         refine ⟨?_, ?_, ?_, ?_⟩ <;> (rintro rfl; exact absurd h (by decide)))
      | (rintro rfl; exact absurd h (by decide))

theorem digitsRev_lt10 (fuel : Nat) :
    ∀ n, ∀ d ∈ digitsRev fuel n, d < 10 := by
  induction fuel with
  | zero => intro n d hd; simp [digitsRev] at hd
  | succ fuel ih =>
    intro n d hd
    by_cases hn : n = 0
    · simp [digitsRev, hn] at hd
    · rw [digitsRev, if_neg hn] at hd
      rcases List.mem_append.mp hd with hmem | hmem
      · exact ih _ _ hmem
      · rw [List.mem_singleton.mp hmem]
        exact Nat.mod_lt _ (by norm_num)

theorem digitsRev_foldl (fuel : Nat) :
    ∀ n, n ≤ fuel → (digitsRev fuel n).foldl (fun a d => 10 * a + d) 0 = n := by
  induction fuel with
  | zero => intro n h; interval_cases n; rfl
  | succ fuel ih =>
    intro n h
    by_cases hn : n = 0
    · simp [digitsRev, hn]
    · rw [digitsRev, if_neg hn, List.foldl_append]
      have hdiv : n / 10 ≤ fuel := by
        have := Nat.div_lt_self (Nat.pos_of_ne_zero hn) (by norm_num : 1 < 10)
        omega
      rw [ih _ hdiv]
      simp only [List.foldl_cons, List.foldl_nil]
      omega

theorem digitsRev_ne_nil (fuel n : Nat) (h0 : n ≠ 0) (h : n ≤ fuel) :
    digitsRev fuel n ≠ [] := by
  cases fuel with
  | zero => omega
  | succ fuel =>
    rw [digitsRev, if_neg h0]
    simp

theorem pyStrNat_digits (n : Nat) :
    (pyStrNat n).toList ≠ [] ∧
      ∀ c ∈ (pyStrNat n).toList, isDigitChar c = true := by
  by_cases hn : n = 0
  · subst hn; exact ⟨by decide, by decide⟩
  · unfold pyStrNat
    rw [if_neg hn]
    constructor
    · simpa using digitsRev_ne_nil n n hn le_rfl
    · intro c hc
      obtain ⟨d, hd, rfl⟩ := List.mem_map.mp hc
      exact (digitToChar_facts d (digitsRev_lt10 n n d hd)).1

theorem foldl_map_digitToChar (l : List Nat) :
    ∀ acc, (∀ d ∈ l, d < 10) →
      (l.map digitToChar).foldl (fun a c => 10 * a + charToDigit c) acc
        = l.foldl (fun a d => 10 * a + d) acc := by
  induction l with
  | nil => intro acc _; rfl
  | cons d l ih =>
    intro acc h
    simp only [List.map_cons, List.foldl_cons]
    rw [(digitToChar_facts d (h d (List.mem_cons_self _ _))).2,
      ih _ (fun x hx => h x (List.mem_cons_of_mem _ hx))]

theorem parseDigits_pyStrNat (n : Nat) :
    parseDigits (pyStrNat n).toList = some n := by
  by_cases hn : n = 0
  · subst hn; decide
  · unfold pyStrNat
    rw [if_neg hn]
    unfold parseDigits
    rw [if_pos ⟨by simpa using digitsRev_ne_nil n n hn le_rfl,
      List.all_eq_true.mpr (fun c hc => by
        obtain ⟨d, hd, rfl⟩ := List.mem_map.mp (by simpa using hc)
        exact (digitToChar_facts d (digitsRev_lt10 n n d hd)).1)⟩]
    rw [show (String.mk ((digitsRev n n).map digitToChar)).toList
        = (digitsRev n n).map digitToChar from rfl]
    rw [foldl_map_digitToChar _ _ (digitsRev_lt10 n n), digitsRev_foldl n n le_rfl]

theorem dropWhile_of_head_neg {α} (p : α → Bool) (l : List α)
    (h : ∀ a, l.head? = some a → p a = false) : l.dropWhile p = l := by
  cases l with
  | nil => rfl
  | cons a l =>
    rw [List.dropWhile_cons, h a rfl]
    simp

theorem takeWhile_of_head_neg {α} (p : α → Bool) (l : List α)
    (h : ∀ a, l.head? = some a → p a = false) : l.takeWhile p = [] := by
  cases l with
  | nil => rfl
  | cons a l =>
    rw [List.takeWhile_cons, h a rfl]
    simp

theorem takeWhile_append_all {α} (p : α → Bool) (l₁ l₂ : List α)
    (h : ∀ a ∈ l₁, p a = true) :
    (l₁ ++ l₂).takeWhile p = l₁ ++ l₂.takeWhile p := by
  induction l₁ with
  | nil => rfl
  | cons a l ih =>
    have ha := h a (List.mem_cons_self _ _)
    simp [List.takeWhile_cons, ha,
      ih (fun x hx => h x (List.mem_cons_of_mem _ hx))]

theorem takeWhile_all {α} (p : α → Bool) (l : List α)
    (h : ∀ a ∈ l, p a = true) : l.takeWhile p = l := by
  induction l with
  | nil => rfl
  | cons a l ih =>
    have ha := h a (List.mem_cons_self _ _)
    simp [List.takeWhile_cons, ha,
      ih (fun x hx => h x (List.mem_cons_of_mem _ hx))]

theorem dropWhile_append_all {α} (p : α → Bool) (l₁ l₂ : List α)
    (h : ∀ a ∈ l₁, p a = true) :
    (l₁ ++ l₂).dropWhile p = l₂.dropWhile p := by
  induction l₁ with
  | nil => rfl
  | cons a l ih =>
    rw [List.cons_append, List.dropWhile_cons, h a (List.mem_cons_self _ _)]
    simp only [if_true]
    exact ih (fun x hx => h x (List.mem_cons_of_mem _ hx))

theorem stripChars_eq_self (cs : List Char)
    (hh : ∀ a, cs.head? = some a → wsChar a = false)
    (hl : ∀ a, cs.getLast? = some a → wsChar a = false) :
    stripChars cs = cs := by
  unfold stripChars
  rw [dropWhile_of_head_neg _ _ hh,
    dropWhile_of_head_neg _ _ (fun a ha => hl a (by
      rwa [← List.head?_reverse])), List.reverse_reverse]

theorem stripChars_all_neg (cs : List Char)
    (h : ∀ a ∈ cs, wsChar a = false) : stripChars cs = cs :=
  stripChars_eq_self cs
    (fun a ha => h a (by cases cs <;> simp_all))
    (fun a ha => h a (by
      have hne : cs ≠ [] := fun h0 => by simp [h0] at ha
      have hg := List.getLast?_eq_getLast_of_ne_nil hne
      rw [ha, Option.some.injEq] at hg
      rw [hg]
      exact List.getLast_mem hne))

theorem pyInt_pyStr (i : Int) : pyInt (pyStr i) = some i := by
  have hdig := pyStrNat_digits i.natAbs
  by_cases hi : i < 0
  · unfold pyStr
    rw [if_pos hi]
    unfold pyInt
    dsimp only
    have htl : ("-" ++ pyStrNat i.natAbs).toList
        = '-' :: (pyStrNat i.natAbs).toList := rfl
    rw [htl]
    rw [stripChars_all_neg _ (by
      intro a ha
      rcases List.mem_cons.mp ha with rfl | ha
      · decide
      · exact (isDigitChar_props a (hdig.2 a ha)).1)]
    rw [if_pos (show List.take 1 ('-' :: (pyStrNat i.natAbs).toList) = ['-']
      from rfl)]
    simp only [List.drop_one, List.tail_cons]
    rw [parseDigits_pyStrNat]
    show some (-(i.natAbs : Int)) = some i
    rw [Option.some.injEq]
    omega
  · unfold pyStr
    rw [if_neg hi]
    unfold pyInt
    dsimp only
    rw [stripChars_all_neg _ (fun a ha => (isDigitChar_props a (hdig.2 a ha)).1)]
    have h1 : ∀ c, (pyStrNat i.natAbs).toList.take 1 = [c] → isDigitChar c = true := by
      intro c hc
      have hsub := List.take_subset 1 (pyStrNat i.natAbs).toList
      rw [hc] at hsub
      exact hdig.2 c (hsub (List.mem_singleton_self c))
    rw [if_neg (fun hc => (isDigitChar_props _ (h1 '-' hc)).2.2.1 rfl)]
    rw [if_neg (fun hc => (isDigitChar_props _ (h1 '+' hc)).2.2.2.1 rfl)]
    rw [parseDigits_pyStrNat]
    show some ((i.natAbs : Int)) = some i
    rw [Option.some.injEq]
    omega

theorem headD_mem_of_ne_nil {α} (l : List α) (d : α) (h : l ≠ []) :
    l.headD d ∈ l := by
  cases l with
  | nil => exact absurd rfl h
  | cons a l => exact List.mem_cons_self _ _

theorem getLastD_mem_of_ne_nil {α} (l : List α) (d : α) (h : l ≠ []) :
    l.getLastD d ∈ l := by
  rw [List.getLastD_eq_getLast?, List.getLast?_eq_getLast_of_ne_nil h]
  exact List.getLast_mem h

theorem benign_pyStr (i : Int) : benignStr (pyStr i) := by
  have hdig := pyStrNat_digits i.natAbs
  unfold benignStr
  by_cases hi : i < 0
  · unfold pyStr
    rw [if_pos hi]
    have htl : ("-" ++ pyStrNat i.natAbs).toList
        = '-' :: (pyStrNat i.natAbs).toList := rfl
    rw [htl]
    refine ⟨by simp, ?_, by rw [List.headD_cons]; decide, ?_⟩
    · intro c hc
      rcases List.mem_cons.mp hc with rfl | hc
      · exact ⟨by decide, by decide, by decide⟩
      · have hp := isDigitChar_props c (hdig.2 c hc)
        exact ⟨hp.2.1, hp.2.2.2.2.1, hp.2.2.2.2.2⟩
    · rw [List.getLastD_cons]
      have hm := getLastD_mem_of_ne_nil (pyStrNat i.natAbs).toList '-' hdig.1
      exact (isDigitChar_props _ (hdig.2 _ hm)).1
  · unfold pyStr
    rw [if_neg hi]
    refine ⟨hdig.1, ?_, ?_, ?_⟩
    · intro c hc
      have hp := isDigitChar_props c (hdig.2 c hc)
      exact ⟨hp.2.1, hp.2.2.2.2.1, hp.2.2.2.2.2⟩
    · have hm := headD_mem_of_ne_nil (pyStrNat i.natAbs).toList 'x' hdig.1
      exact (isDigitChar_props _ (hdig.2 _ hm)).1
    · have hm := getLastD_mem_of_ne_nil (pyStrNat i.natAbs).toList 'x' hdig.1
      exact (isDigitChar_props _ (hdig.2 _ hm)).1

theorem head?_append_left {α} (l₁ l₂ : List α) (h : l₁ ≠ []) :
    (l₁ ++ l₂).head? = l₁.head? := by
  cases l₁ with
  | nil => exact absurd rfl h
  | cons a l => rfl

theorem getLast?_append_right {α} (l₁ l₂ : List α) (h : l₂ ≠ []) :
    (l₁ ++ l₂).getLast? = l₂.getLast? := by
  induction l₁ with
  | nil => rfl
  | cons a l ih =>
    rw [List.cons_append]
    rw [List.getLast?_cons, ih]
    cases l₂ with
    | nil => exact absurd rfl h
    | cons b l₂ =>
      rw [List.getLast?_cons]
      simp [List.getLastD_eq_getLast?]

theorem pySplitOnce_field (nm pd : List Char) (vl : String)
    (hnm1 : nm ≠ []) (hnm2 : ∀ c ∈ nm, wsChar c = false)
    (hpd1 : pd ≠ []) (hpd2 : ∀ c ∈ pd, c = ' ')
    (hv1 : vl.toList ≠ [])
    (hv3 : wsChar (vl.toList.headD 'x') = false) :
    pySplitOnce (nm ++ (pd ++ vl.toList)) = some (nm, vl.toList) := by
  have hhead : ∀ a, (nm ++ (pd ++ vl.toList)).head? = some a → wsChar a = false := by
    intro a ha
    cases nm with
    | nil => exact absurd rfl hnm1
    | cons b nm' =>
      rw [List.cons_append, List.head?_cons, Option.some.injEq] at ha
      rw [← ha]
      exact hnm2 b (List.mem_cons_self _ _)
  have hvlhead : ∀ a, vl.toList.head? = some a → wsChar a = false := by
    intro a ha
    cases hc : vl.toList with
    | nil => rw [hc] at ha; exact absurd ha (by simp)
    | cons b l =>
      rw [hc] at ha
      rw [List.head?_cons, Option.some.injEq] at ha
      rw [hc, List.headD_cons] at hv3
      rw [← ha]
      exact hv3
  have hpdhead : ∀ a, (pd ++ vl.toList).head? = some a → a = ' ' := by
    intro a ha
    cases pd with
    | nil => exact absurd rfl hpd1
    | cons b pd' =>
      rw [List.cons_append, List.head?_cons, Option.some.injEq] at ha
      rw [← ha]
      exact hpd2 b (List.mem_cons_self _ _)
  unfold pySplitOnce
  dsimp only
  rw [dropWhile_of_head_neg wsChar _ hhead]
  rw [takeWhile_append_all _ nm (pd ++ vl.toList)
    (fun a ha => by rw [hnm2 a ha]; rfl)]
  rw [takeWhile_of_head_neg _ (pd ++ vl.toList)
    (fun a ha => by rw [hpdhead a ha]; rfl)]
  rw [List.append_nil]
  rw [dropWhile_append_all _ nm (pd ++ vl.toList)
    (fun a ha => by rw [hnm2 a ha]; rfl)]
  rw [dropWhile_of_head_neg _ (pd ++ vl.toList)
    (fun a ha => by rw [hpdhead a ha]; rfl)]
  rw [dropWhile_append_all wsChar pd vl.toList
    (fun a ha => by rw [hpd2 a ha]; rfl)]
  rw [dropWhile_of_head_neg wsChar _ hvlhead]
  rw [if_neg (by
    rintro (h | h)
    · exact hnm1 h
    · exact hv1 h)]

theorem loadFields_field (md : MetaData) (rest : List String)
    (nm pd : List Char) (vl : String)
    (hnm : nm ≠ [] ∧ ∀ c ∈ nm, wsChar c = false ∧ c ≠ '#')
    (hpd : pd ≠ [] ∧ ∀ c ∈ pd, c = ' ')
    (hvl : benignStr vl) :
    MetaData.loadFields md (String.mk (nm ++ (pd ++ vl.toList)) :: rest)
      = match md.setField (String.mk nm) vl with
        | .unknown => MetaData.loadFields md rest
        | .failed e => .error e
        | .done md' => MetaData.loadFields md' rest := by
  obtain ⟨hnm1, hnm2⟩ := hnm
  obtain ⟨hpd1, hpd2⟩ := hpd
  obtain ⟨hv1, hv2, hv3, hv4⟩ := hvl
  conv_lhs => rw [MetaData.loadFields]
  rw [show (String.mk (nm ++ (pd ++ vl.toList))).toList
      = nm ++ (pd ++ vl.toList) from rfl]
  rw [takeWhile_all _ _ (by
    intro a ha
    rcases List.mem_append.mp ha with ha | ha
    · simp [(hnm2 a ha).2]
    · rcases List.mem_append.mp ha with ha | ha
      · rw [hpd2 a ha]; decide
      · simp [(hv2 a ha).1])]
  rw [stripChars_eq_self _
    (by
      intro a ha
      cases nm with
      | nil => exact absurd rfl hnm1
      | cons b nm' =>
        rw [List.cons_append, List.head?_cons, Option.some.injEq] at ha
        rw [← ha]
        exact (hnm2 b (List.mem_cons_self _ _)).1)
    (by
      intro a ha
      rw [getLast?_append_right _ _ (fun h => hv1 (List.append_eq_nil.mp h).2),
        getLast?_append_right _ _ hv1] at ha
      rw [List.getLastD_eq_getLast?, ha] at hv4
      exact hv4)]
  rw [if_neg (by intro h; exact hnm1 (List.append_eq_nil.mp h).1)]
  rw [pySplitOnce_field nm pd vl hnm1 (fun c hc => (hnm2 c hc).1) hpd1 hpd2 hv1 hv3]
  rfl

theorem loadFields_Name (md : MetaData) (v : String) (hv : benignStr v)
    (rest : List String) :
    MetaData.loadFields md (("Name            " ++ v) :: rest)
      = MetaData.loadFields { md with Name := v } rest := by
  rw [show ("Name            " ++ v)
      = String.mk ("Name".toList ++ ("            ".toList ++ v.toList)) from rfl]
  rw [loadFields_field md rest "Name".toList "            ".toList v
    (by decide) (by decide) hv]
  rfl

theorem loadFields_Description (md : MetaData) (v : String) (hv : benignStr v)
    (rest : List String) :
    MetaData.loadFields md (("Description     " ++ v) :: rest)
      = MetaData.loadFields { md with Description := v } rest := by
  rw [show ("Description     " ++ v)
      = String.mk ("Description".toList ++ ("     ".toList ++ v.toList)) from rfl]
  rw [loadFields_field md rest "Description".toList "     ".toList v
    (by decide) (by decide) hv]
  rfl

theorem loadFields_URL (md : MetaData) (v : String) (hv : benignStr v)
    (rest : List String) :
    MetaData.loadFields md (("URL             " ++ v) :: rest)
      = MetaData.loadFields { md with URL := v } rest := by
  rw [show ("URL             " ++ v)
      = String.mk ("URL".toList ++ ("             ".toList ++ v.toList)) from rfl]
  rw [loadFields_field md rest "URL".toList "             ".toList v
    (by decide) (by decide) hv]
  rfl

theorem loadFields_Publisher (md : MetaData) (v : String) (hv : benignStr v)
    (rest : List String) :
    MetaData.loadFields md (("Publisher       " ++ v) :: rest)
      = MetaData.loadFields { md with Publisher := v } rest := by
  rw [show ("Publisher       " ++ v)
      = String.mk ("Publisher".toList ++ ("       ".toList ++ v.toList)) from rfl]
  rw [loadFields_field md rest "Publisher".toList "       ".toList v
    (by decide) (by decide) hv]
  rfl

theorem loadFields_ReleaseDate (md : MetaData) (v : String) (hv : benignStr v)
    (rest : List String) :
    MetaData.loadFields md (("ReleaseDate     " ++ v) :: rest)
      = MetaData.loadFields { md with ReleaseDate := v } rest := by
  rw [show ("ReleaseDate     " ++ v)
      = String.mk ("ReleaseDate".toList ++ ("     ".toList ++ v.toList)) from rfl]
  rw [loadFields_field md rest "ReleaseDate".toList "     ".toList v
    (by decide) (by decide) hv]
  rfl

theorem loadFields_DataCutOff (md : MetaData) (v : String) (hv : benignStr v)
    (rest : List String) :
    MetaData.loadFields md (("DataCutOff      " ++ v) :: rest)
      = MetaData.loadFields { md with DataCutOff := v } rest := by
  rw [show ("DataCutOff      " ++ v)
      = String.mk ("DataCutOff".toList ++ ("      ".toList ++ v.toList)) from rfl]
  rw [loadFields_field md rest "DataCutOff".toList "      ".toList v
    (by decide) (by decide) hv]
  rfl

theorem loadFields_ConversionDate (md : MetaData) (v : String) (hv : benignStr v)
    (rest : List String) :
    MetaData.loadFields md (("ConversionDate  " ++ v) :: rest)
      = MetaData.loadFields { md with ConversionDate := v } rest := by
  rw [show ("ConversionDate  " ++ v)
      = String.mk ("ConversionDate".toList ++ ("  ".toList ++ v.toList)) from rfl]
  rw [loadFields_field md rest "ConversionDate".toList "  ".toList v
    (by decide) (by decide) hv]
  rfl

theorem loadFields_ID (md : MetaData) (v : String) (hv : benignStr v)
    (rest : List String) :
    MetaData.loadFields md (("ID              " ++ v) :: rest)
      = MetaData.loadFields { md with ID := v } rest := by
  rw [show ("ID              " ++ v)
      = String.mk ("ID".toList ++ ("              ".toList ++ v.toList)) from rfl]
  rw [loadFields_field md rest "ID".toList "              ".toList v
    (by decide) (by decide) hv]
  rfl

theorem loadFields_DataVersion (md : MetaData) (i : Int) (rest : List String) :
    MetaData.loadFields md (("DataVersion     " ++ pyStr i) :: rest)
      = MetaData.loadFields { md with DataVersion := i } rest := by
  rw [show ("DataVersion     " ++ pyStr i)
      = String.mk ("DataVersion".toList ++ ("     ".toList ++ (pyStr i).toList)) from rfl]
  rw [loadFields_field md rest "DataVersion".toList "     ".toList (pyStr i)
    (by decide) (by decide) (benign_pyStr i)]
  rw [show md.setField (String.mk "DataVersion".toList) (pyStr i)
      = (match pyInt (pyStr i) with
         | none => SetFieldResult.failed .valueErr
         | some j => SetFieldResult.done { md with DataVersion := j }) from rfl]
  rw [pyInt_pyStr i]

theorem loadFields_Radius (md : MetaData) (i : Int) (rest : List String) :
    MetaData.loadFields md (("Radius          " ++ pyStr i) :: rest)
      = MetaData.loadFields { md with Radius := i } rest := by
  rw [show ("Radius          " ++ pyStr i)
      = String.mk ("Radius".toList ++ ("          ".toList ++ (pyStr i).toList)) from rfl]
  rw [loadFields_field md rest "Radius".toList "          ".toList (pyStr i)
    (by decide) (by decide) (benign_pyStr i)]
  rw [show md.setField (String.mk "Radius".toList) (pyStr i)
      = (match pyInt (pyStr i) with
         | none => SetFieldResult.failed .valueErr
         | some j => SetFieldResult.done { md with Radius := j }) from rfl]
  rw [pyInt_pyStr i]

theorem loadFields_NumModels (md : MetaData) (i : Int) (rest : List String) :
    MetaData.loadFields md (("NumModels       " ++ pyStr i) :: rest)
      = MetaData.loadFields { md with NumModels := i } rest := by
  rw [show ("NumModels       " ++ pyStr i)
      = String.mk ("NumModels".toList ++ ("       ".toList ++ (pyStr i).toList)) from rfl]
  rw [loadFields_field md rest "NumModels".toList "       ".toList (pyStr i)
    (by decide) (by decide) (benign_pyStr i)]
  rw [show md.setField (String.mk "NumModels".toList) (pyStr i)
      = (match pyInt (pyStr i) with
         | none => SetFieldResult.failed .valueErr
         | some j => SetFieldResult.done { md with NumModels := j }) from rfl]
  rw [pyInt_pyStr i]

theorem loadFields_Epoch (md : MetaData) (i : Int) (rest : List String) :
    MetaData.loadFields md (("Epoch           " ++ pyStr i) :: rest)
      = MetaData.loadFields { md with Epoch := i } rest := by
  rw [show ("Epoch           " ++ pyStr i)
      = String.mk ("Epoch".toList ++ ("           ".toList ++ (pyStr i).toList)) from rfl]
  rw [loadFields_field md rest "Epoch".toList "           ".toList (pyStr i)
    (by decide) (by decide) (benign_pyStr i)]
  rw [show md.setField (String.mk "Epoch".toList) (pyStr i)
      = (match pyInt (pyStr i) with
         | none => SetFieldResult.failed .valueErr
         | some j => SetFieldResult.done { md with Epoch := j }) from rfl]
  rw [pyInt_pyStr i]

theorem loadFields_DeltaEpoch (md : MetaData) (i : Int) (rest : List String) :
    MetaData.loadFields md (("DeltaEpoch      " ++ pyStr i) :: rest)
      = MetaData.loadFields { md with DeltaEpoch := i } rest := by
  rw [show ("DeltaEpoch      " ++ pyStr i)
      = String.mk ("DeltaEpoch".toList ++ ("      ".toList ++ (pyStr i).toList)) from rfl]
  rw [loadFields_field md rest "DeltaEpoch".toList "      ".toList (pyStr i)
    (by decide) (by decide) (benign_pyStr i)]
  rw [show md.setField (String.mk "DeltaEpoch".toList) (pyStr i)
      = (match pyInt (pyStr i) with
         | none => SetFieldResult.failed .valueErr
         | some j => SetFieldResult.done { md with DeltaEpoch := j }) from rfl]
  rw [pyInt_pyStr i]

theorem loadFields_MinTime (md : MetaData) (i : Int) (rest : List String) :
    MetaData.loadFields md (("MinTime         " ++ pyStr i) :: rest)
      = MetaData.loadFields { md with MinTime := i } rest := by
  rw [show ("MinTime         " ++ pyStr i)
      = String.mk ("MinTime".toList ++ ("         ".toList ++ (pyStr i).toList)) from rfl]
  rw [loadFields_field md rest "MinTime".toList "         ".toList (pyStr i)
    (by decide) (by decide) (benign_pyStr i)]
  rw [show md.setField (String.mk "MinTime".toList) (pyStr i)
      = (match pyInt (pyStr i) with
         | none => SetFieldResult.failed .valueErr
         | some j => SetFieldResult.done { md with MinTime := j }) from rfl]
  rw [pyInt_pyStr i]

theorem loadFields_MaxTime (md : MetaData) (i : Int) (rest : List String) :
    MetaData.loadFields md (("MaxTime         " ++ pyStr i) :: rest)
      = MetaData.loadFields { md with MaxTime := i } rest := by
  rw [show ("MaxTime         " ++ pyStr i)
      = String.mk ("MaxTime".toList ++ ("         ".toList ++ (pyStr i).toList)) from rfl]
  rw [loadFields_field md rest "MaxTime".toList "         ".toList (pyStr i)
    (by decide) (by decide) (benign_pyStr i)]
  rw [show md.setField (String.mk "MaxTime".toList) (pyStr i)
      = (match pyInt (pyStr i) with
         | none => SetFieldResult.failed .valueErr
         | some j => SetFieldResult.done { md with MaxTime := j }) from rfl]
  rw [pyInt_pyStr i]

theorem loadFields_MinHeight (md : MetaData) (i : Int) (rest : List String) :
    MetaData.loadFields md (("MinHeight       " ++ pyStr i) :: rest)
      = MetaData.loadFields { md with MinHeight := i } rest := by
  rw [show ("MinHeight       " ++ pyStr i)
      = String.mk ("MinHeight".toList ++ ("       ".toList ++ (pyStr i).toList)) from rfl]
  rw [loadFields_field md rest "MinHeight".toList "       ".toList (pyStr i)
    (by decide) (by decide) (benign_pyStr i)]
  rw [show md.setField (String.mk "MinHeight".toList) (pyStr i)
      = (match pyInt (pyStr i) with
         | none => SetFieldResult.failed .valueErr
         | some j => SetFieldResult.done { md with MinHeight := j }) from rfl]
  rw [pyInt_pyStr i]

theorem loadFields_MaxHeight (md : MetaData) (i : Int) (rest : List String) :
    MetaData.loadFields md (("MaxHeight       " ++ pyStr i) :: rest)
      = MetaData.loadFields { md with MaxHeight := i } rest := by
  rw [show ("MaxHeight       " ++ pyStr i)
      = String.mk ("MaxHeight".toList ++ ("       ".toList ++ (pyStr i).toList)) from rfl]
  rw [loadFields_field md rest "MaxHeight".toList "       ".toList (pyStr i)
    (by decide) (by decide) (benign_pyStr i)]
  rw [show md.setField (String.mk "MaxHeight".toList) (pyStr i)
      = (match pyInt (pyStr i) with
         | none => SetFieldResult.failed .valueErr
         | some j => SetFieldResult.done { md with MaxHeight := j }) from rfl]
  rw [pyInt_pyStr i]

theorem loadFields_skip_blank (md' : MetaData) (rest : List String) :
    MetaData.loadFields md' ("" :: rest) = MetaData.loadFields md' rest := rfl

theorem loadFields_skip_comment (md' : MetaData) (s : String)
    (rest : List String) :
    MetaData.loadFields md' (("#" ++ s) :: rest)
      = MetaData.loadFields md' rest := rfl

theorem load_marker1 (md' : MetaData) (rest : List String) :
    MetaData.load md' (("WMMF-" ++ pyStr 1) :: rest)
      = MetaData.loadFields { md' with FORMAT_VERSION := 1 } rest := rfl

theorem load_marker2 (md' : MetaData) (rest : List String) :
    MetaData.load md' (("WMMF-" ++ pyStr 2) :: rest)
      = MetaData.loadFields { md' with FORMAT_VERSION := 2 } rest := rfl

/-- Walking the sixteen value lines of a rendered metadata file sets
exactly the sixteen rendered fields, leaving the remaining lines to be
processed. -/
theorem loadFields_value_lines (md md0 : MetaData) (tail : List String)
    (hN : benignStr md.Name) (hD : benignStr md.Description)
    (hU : benignStr md.URL) (hP : benignStr md.Publisher)
    (hRd : benignStr md.ReleaseDate) (hDc : benignStr md.DataCutOff)
    (hCv : benignStr md.ConversionDate) :
    MetaData.loadFields md0
        (("Name            " ++ md.Name) ::
         ("Description     " ++ md.Description) ::
         ("URL             " ++ md.URL) ::
         ("Publisher       " ++ md.Publisher) ::
         ("ReleaseDate     " ++ md.ReleaseDate) ::
         ("DataCutOff      " ++ md.DataCutOff) ::
         ("ConversionDate  " ++ md.ConversionDate) ::
         ("DataVersion     " ++ pyStr md.DataVersion) ::
         ("Radius          " ++ pyStr md.Radius) ::
         ("NumModels       " ++ pyStr md.NumModels) ::
         ("Epoch           " ++ pyStr md.Epoch) ::
         ("DeltaEpoch      " ++ pyStr md.DeltaEpoch) ::
         ("MinTime         " ++ pyStr md.MinTime) ::
         ("MaxTime         " ++ pyStr md.MaxTime) ::
         ("MinHeight       " ++ pyStr md.MinHeight) ::
         ("MaxHeight       " ++ pyStr md.MaxHeight) :: tail)
      = MetaData.loadFields { md0 with
          Name := md.Name, Description := md.Description, URL := md.URL, Publisher := md.Publisher, ReleaseDate := md.ReleaseDate, DataCutOff := md.DataCutOff, ConversionDate := md.ConversionDate, DataVersion := md.DataVersion, Radius := md.Radius, NumModels := md.NumModels, Epoch := md.Epoch, DeltaEpoch := md.DeltaEpoch, MinTime := md.MinTime, MaxTime := md.MaxTime, MinHeight := md.MinHeight, MaxHeight := md.MaxHeight } tail := by
  rw [loadFields_Name _ _ hN]
  rw [loadFields_Description _ _ hD]
  rw [loadFields_URL _ _ hU]
  rw [loadFields_Publisher _ _ hP]
  rw [loadFields_ReleaseDate _ _ hRd]
  rw [loadFields_DataCutOff _ _ hDc]
  rw [loadFields_ConversionDate _ _ hCv]
  rw [loadFields_DataVersion]
  rw [loadFields_Radius]
  rw [loadFields_NumModels]
  rw [loadFields_Epoch]
  rw [loadFields_DeltaEpoch]
  rw [loadFields_MinTime]
  rw [loadFields_MaxTime]
  rw [loadFields_MinHeight]
  rw [loadFields_MaxHeight]

/-- Processing the trailer of a rendered metadata file: the blank line and
the comment lines are skipped, and the final `ID` line sets the `ID`
field. -/
theorem loadFields_id_tail (md1 : MetaData) (nm v : String)
    (hI : benignStr v) :
    MetaData.loadFields md1
        ("" ::
         "# The coefficients are stored in a file obtained by appending \".cof\" to" ::
         ("# the name of this file.  The coefficients were obtained from "
           ++ nm ++ ".COF") ::
         "# in the geomag70 distribution." ::
         ("ID              " ++ v) :: [])
      = .ok { md1 with ID := v } := by
  rw [loadFields_skip_blank]
  rw [show ("# The coefficients are stored in a file obtained by appending \".cof\" to"
      : String)
      = "#" ++ " The coefficients are stored in a file obtained by appending \".cof\" to"
      from rfl]
  rw [loadFields_skip_comment]
  rw [show ("# the name of this file.  The coefficients were obtained from "
        ++ nm ++ ".COF")
      = "#" ++ (" the name of this file.  The coefficients were obtained from "
        ++ nm ++ ".COF") from rfl]
  rw [loadFields_skip_comment]
  rw [show ("# in the geomag70 distribution." : String)
      = "#" ++ " in the geomag70 distribution." from rfl]
  rw [loadFields_skip_comment]
  rw [loadFields_ID _ _ hI]
  rfl

/-- The metadata text round trip: a metadata record with benign field
values, an explicit id, a non-default description, no unserialized
field changed from its default, and a valid format version renders to
its canonical lines, and parsing those lines from a fresh `MetaData`
reproduces the record exactly. -/
theorem metadata_roundtrip (md : MetaData)
    (hN : benignStr md.Name) (hD : benignStr md.Description)
    (hU : benignStr md.URL) (hP : benignStr md.Publisher)
    (hRd : benignStr md.ReleaseDate) (hDc : benignStr md.DataCutOff)
    (hCv : benignStr md.ConversionDate) (hI : benignStr md.ID)
    (hid1 : md.ID ≠ "") (hid2 : md.ID ≠ "N/A")
    (hdesc : md.Description ≠ "International Geomagnetic Reference Field")
    (hfv : md.FORMAT_VERSION = 1 ∨ md.FORMAT_VERSION = 2)
    (hnc : md.NumConstants = 0) (hnorm : md.Normalization = 1)
    (hNf : md.N = 0) (hMf : md.M = 0) :
    md.render = .ok (renderedLines md) ∧
    ({} : MetaData).load (renderedLines md) = .ok md := by
  have hgid : md.get_id = md.ID := by
    unfold MetaData.get_id
    rw [if_neg (by rintro (h | h); exacts [hid1 h, hid2 h])]
  constructor
  · unfold MetaData.render
    rw [if_neg hdesc]
    rfl
  · obtain ⟨n1, d1, u1, p1, r1, c1, v1, dv, ra, nmo, ep, de, mit, mat,
      mih, mah, nc, nor, idv, nn, mm, fv⟩ := md
    simp only at hnc hnorm hNf hMf hfv
    subst hnc
    subst hnorm
    subst hNf
    subst hMf
    rw [renderedLines]
    rcases hfv with rfl | rfl
    · rw [load_marker1]
      rw [show ("# A World Magnetic Model (Format " ++ pyStr 1
            ++ ") file.  For documentation on the")
          = "#" ++ (" A World Magnetic Model (Format " ++ pyStr 1
            ++ ") file.  For documentation on the") from rfl]
      rw [loadFields_skip_comment]
      rw [show ("# format of this file see" : String)
          = "#" ++ " format of this file see" from rfl]
      rw [loadFields_skip_comment]
      rw [show ("# http://geographiclib.sf.net/html/magnetic.html#magneticformat"
            : String)
          = "#" ++ " http://geographiclib.sf.net/html/magnetic.html#magneticformat"
          from rfl]
      rw [loadFields_skip_comment]
      rw [loadFields_value_lines _ _ _ hN hD hU hP hRd hDc hCv]
      rw [hgid]
      rw [loadFields_id_tail _ _ _ hI]
    · rw [load_marker2]
      rw [show ("# A World Magnetic Model (Format " ++ pyStr 2
            ++ ") file.  For documentation on the")
          = "#" ++ (" A World Magnetic Model (Format " ++ pyStr 2
            ++ ") file.  For documentation on the") from rfl]
      rw [loadFields_skip_comment]
      rw [show ("# format of this file see" : String)
          = "#" ++ " format of this file see" from rfl]
      rw [loadFields_skip_comment]
      rw [show ("# http://geographiclib.sf.net/html/magnetic.html#magneticformat"
            : String)
          = "#" ++ " http://geographiclib.sf.net/html/magnetic.html#magneticformat"
          from rfl]
      rw [loadFields_skip_comment]
      rw [loadFields_value_lines _ _ _ hN hD hU hP hRd hDc hCv]
      rw [hgid]
      rw [loadFields_id_tail _ _ _ hI]

/-! ### The lossless write path and the full round trip (claim C3) -/

theorem ratAbs_nonneg (q : ℚ) : 0 ≤ ratAbs q := by
  unfold ratAbs
  split <;> linarith

theorem ratAbs_pos (q : ℚ) (h : q ≠ 0) : 0 < ratAbs q := by
  unfold ratAbs
  split
  · linarith
  · rcases lt_or_eq_of_le (not_lt.mp (by assumption)) with h' | h'
    · exact h'
    · exact absurd h'.symm h

theorem fdiv_two_natCast (a : Nat) : ((a : Int)).fdiv 2 = ((a / 2 : Nat) : Int) := by
  cases a with
  | zero => rfl
  | succ n => rfl

theorem readFloats_exact (l : List ℚ) (rest : List BinTok) :
    readFloats l.length (l.map .flt ++ rest) = .ok (l, rest) := by
  induction l with
  | nil => rfl
  | cons q t ih =>
    show readFloats (t.length + 1) (.flt q :: (t.map .flt ++ rest)) = _
    unfold readFloats
    rw [ih]

theorem unpackC_packC_mtxEq (C : Mtx) (N M : Nat)
    (hCr : C.rows = N + 1) (hCc : C.cols = M + 1) (hCt : triangular C) :
    mtxEq (unpackC N M (packC C N M)) C := by
  refine ⟨hCr.symm, hCc.symm, ?_⟩
  intro d hd o ho
  have hd : d < N + 1 := hd
  have ho : o < M + 1 := ho
  rw [unpackC_entry]
  by_cases h : o ≤ d
  · rw [if_pos ⟨ho, h, hd⟩]
  · rw [if_neg (by omega), (hCt d (by omega) o (by omega) (by omega)).symm]

theorem unpackS_packS_mtxEq (S : Mtx) (N M : Nat)
    (hSr : S.rows = N + 1) (hSc : S.cols = M + 1)
    (hSt : triangular S) (hS0 : sColZero S) :
    mtxEq (unpackS N M (packS S N M)) S := by
  refine ⟨hSr.symm, hSc.symm, ?_⟩
  intro d hd o ho
  have hd : d < N + 1 := hd
  have ho : o < M + 1 := ho
  rw [unpackS_entry]
  by_cases h : 1 ≤ o ∧ o ≤ d
  · rw [if_pos ⟨h.1, ho, h.2, hd⟩]
  · rw [if_neg (by tauto)]
    rcases Nat.lt_or_ge d o with hlt | hge
    · exact (hSt d (by omega) o (by omega) hlt).symm
    · have : o = 0 := by omega
      subst this
      exact (hS0 d (by omega)).symm

theorem colSum_corner_pos (cs : SphCoeffSet) (N : Nat) (hCr : cs.C.rows = N + 1)
    (h : cs.C.entry N N ≠ 0) : 0 < colSum cs N := by
  unfold colSum
  rw [qSum_eq_sum, hCr, List.range_succ, List.map_append, List.sum_append]
  have h1 : 0 ≤ (((List.range N).map
      (fun i => qAdd (ratAbs (cs.C.entry i N)) (ratAbs (cs.S.entry i N)))).sum) := by
    refine List.sum_nonneg (fun x hx => ?_)
    obtain ⟨i, _, rfl⟩ := List.mem_map.mp hx
    rw [qAdd_eq_add]
    have := ratAbs_nonneg (cs.C.entry i N)
    have := ratAbs_nonneg (cs.S.entry i N)
    linarith
  have h2 : 0 < qAdd (ratAbs (cs.C.entry N N)) (ratAbs (cs.S.entry N N)) := by
    rw [qAdd_eq_add]
    have := ratAbs_pos (cs.C.entry N N) h
    have := ratAbs_nonneg (cs.S.entry N N)
    linarith
  simp only [List.map_cons, List.map_nil, List.sum_cons, List.sum_nil]
  linarith

theorem rowSum_corner_pos (cs : SphCoeffSet) (N : Nat) (hCc : cs.C.cols = N + 1)
    (h : cs.C.entry N N ≠ 0) : 0 < rowSum cs N := by
  unfold rowSum
  rw [qSum_eq_sum, hCc, List.range_succ, List.map_append, List.sum_append]
  have h1 : 0 ≤ (((List.range N).map
      (fun j => qAdd (ratAbs (cs.C.entry N j)) (ratAbs (cs.S.entry N j)))).sum) := by
    refine List.sum_nonneg (fun x hx => ?_)
    obtain ⟨j, _, rfl⟩ := List.mem_map.mp hx
    rw [qAdd_eq_add]
    have := ratAbs_nonneg (cs.C.entry N j)
    have := ratAbs_nonneg (cs.S.entry N j)
    linarith
  have h2 : 0 < qAdd (ratAbs (cs.C.entry N N)) (ratAbs (cs.S.entry N N)) := by
    rw [qAdd_eq_add]
    have := ratAbs_pos (cs.C.entry N N) h
    have := ratAbs_nonneg (cs.S.entry N N)
    linarith
  simp only [List.map_cons, List.map_nil, List.sum_cons, List.sum_nil]
  linarith

theorem lastNonzeroCol_corner (cs : SphCoeffSet) (N : Nat)
    (hCr : cs.C.rows = N + 1) (hCc : cs.C.cols = N + 1)
    (h : cs.C.entry N N ≠ 0) : lastNonzeroCol cs = some N := by
  unfold lastNonzeroCol
  rw [hCc, List.range_succ, List.filter_append]
  have hN : (List.filter (fun j => decide (0 < colSum cs j)) [N]) = [N] := by
    simp [List.filter, colSum_corner_pos cs N hCr h]
  rw [hN, getLast?_append_right _ _ (by simp)]
  rfl

theorem lastNonzeroRow_corner (cs : SphCoeffSet) (N : Nat)
    (hCr : cs.C.rows = N + 1) (hCc : cs.C.cols = N + 1)
    (h : cs.C.entry N N ≠ 0) : lastNonzeroRow cs = some N := by
  unfold lastNonzeroRow
  rw [hCr, List.range_succ, List.filter_append]
  have hN : (List.filter (fun i => decide (0 < rowSum cs i)) [N]) = [N] := by
    simp [List.filter, rowSum_corner_pos cs N hCc h]
  rw [hN, getLast?_append_right _ _ (by simp)]
  rfl

theorem save_sph_coeff_set_square (cs : SphCoeffSet) (h : goodSet cs) :
    ∃ N : Nat, cs.C.rows = N + 1 ∧ cs.C.cols = N + 1 ∧
      cs.S.rows = N + 1 ∧ cs.S.cols = N + 1 ∧
      WmmData.save_sph_coeff_set cs
        = .ok ([.int (N : Int), .int (N : Int)]
            ++ (packC cs.C N N).map .flt ++ (packS cs.S N N).map .flt) := by
  obtain ⟨h1, h2, h3, h4, h5, _, _, _, hcorner⟩ := h
  refine ⟨cs.C.rows - 1, by omega, by omega, by omega, by omega, ?_⟩
  have hCr : cs.C.rows = cs.C.rows - 1 + 1 := by omega
  have hCc : cs.C.cols = cs.C.rows - 1 + 1 := by omega
  unfold WmmData.save_sph_coeff_set
  rw [if_neg (by omega)]
  dsimp only
  rw [if_neg (by rw [h2]; omega)]
  rw [lastNonzeroCol_corner cs _ hCr hCc hcorner]
  dsimp only
  rw [lastNonzeroRow_corner cs _ hCr hCc hcorner]
  dsimp only
  rw [if_neg (show ¬(cs.C.rows - 1 > cs.C.rows - 1) from by omega)]
  rw [if_neg (show ¬(2 ^ 31 ≤ cs.C.rows - 1 ∨ 2 ^ 31 ≤ cs.C.rows - 1) from by omega)]

theorem load_sph_coeff_set_exact (N : Nat) (c s : List ℚ) (rest : List BinTok)
    (hc : c.length = (N + 1) * (N + 2) / 2) (hs : s.length = N * (N + 1) / 2) :
    WmmData.load_sph_coeff_set
        (.int (N : Int) :: .int (N : Int) :: (c.map .flt ++ (s.map .flt ++ rest)))
      = .ok (⟨unpackC N N c, unpackS N N s⟩, rest) := by
  have h1 : (((N : Int) + 1) * (2 * (N : Int) - (N : Int) + 2)).fdiv 2
      = (((N + 1) * (N + 2) / 2 : Nat) : Int) := by
    have he : ((N : Int) + 1) * (2 * (N : Int) - (N : Int) + 2)
        = (((N + 1) * (N + 2) : Nat) : Int) := by push_cast; ring
    rw [he, fdiv_two_natCast]
  have h2 : ((N : Int) * (2 * (N : Int) - (N : Int) + 1)).fdiv 2
      = ((N * (N + 1) / 2 : Nat) : Int) := by
    have he : (N : Int) * (2 * (N : Int) - (N : Int) + 1)
        = ((N * (N + 1) : Nat) : Int) := by push_cast; ring
    rw [he, fdiv_two_natCast]
  unfold WmmData.load_sph_coeff_set
  rw [show readInts2 (.int (N : Int) :: .int (N : Int)
        :: (c.map .flt ++ (s.map .flt ++ rest)))
      = .ok ((N : Int), (N : Int), c.map .flt ++ (s.map .flt ++ rest)) from rfl]
  simp only [bind, Except.bind]
  rw [if_neg (by omega)]
  rw [h1, h2]
  simp only [Int.toNat_natCast]
  rw [← hc, readFloats_exact]
  dsimp only
  rw [← hs, readFloats_exact]
  rfl

theorem set_roundtrip (cs : SphCoeffSet) (h : goodSet cs) :
    ∃ (t : List BinTok) (cs' : SphCoeffSet),
      WmmData.save_sph_coeff_set cs = .ok t ∧
      (∀ rest, WmmData.load_sph_coeff_set (t ++ rest) = .ok (cs', rest)) ∧
      mtxEq cs'.C cs.C ∧ mtxEq cs'.S cs.S := by
  obtain ⟨N, hCr, hCc, hSr, hSc, hsave⟩ := save_sph_coeff_set_square cs h
  obtain ⟨_, _, _, _, _, hCt, hSt, hS0, _⟩ := h
  refine ⟨_, ⟨unpackC N N (packC cs.C N N), unpackS N N (packS cs.S N N)⟩,
    hsave, ?_, ?_, ?_⟩
  · intro rest
    have hassoc : ([.int (N : Int), .int (N : Int)]
          ++ (packC cs.C N N).map .flt ++ (packS cs.S N N).map .flt) ++ rest
        = .int (N : Int) :: .int (N : Int)
          :: ((packC cs.C N N).map BinTok.flt
              ++ ((packS cs.S N N).map BinTok.flt ++ rest)) := by
      simp
    rw [hassoc]
    refine load_sph_coeff_set_exact N _ _ rest ?_ ?_
    · rw [length_packC cs.C N N le_rfl]
      have : 2 * N - N + 2 = N + 2 := by omega
      rw [this]
    · rw [length_packS cs.S N N le_rfl]
      have : 2 * N - N + 1 = N + 1 := by omega
      rw [this]
  · exact unpackC_packC_mtxEq cs.C N N hCr hCc hCt
  · exact unpackS_packS_mtxEq cs.S N N hSr hSc hSt hS0

theorem forall₂_keys_eq {l₁ l₂ : List (String × SphCoeffSet)}
    (h : List.Forall₂
      (fun p q => p.1 = q.1 ∧ mtxEq q.2.C p.2.C ∧ mtxEq q.2.S p.2.S) l₁ l₂) :
    l₂.map Prod.fst = l₁.map Prod.fst := by
  induction h with
  | nil => rfl
  | cons h₁ _ ih =>
    simp only [List.map_cons, ih, h₁.1]

theorem sets_roundtrip (sets : List (String × SphCoeffSet))
    (h : ∀ p ∈ sets, goodSet p.2) :
    ∃ (toks : List BinTok) (sets' : List (String × SphCoeffSet)),
      (∀ acc, WmmData.save_sets sets acc = (acc ++ toks, none)) ∧
      (∀ rest, WmmData.load_sets (sets.map Prod.fst) (toks ++ rest)
        = .ok (sets', rest)) ∧
      List.Forall₂
        (fun p q => p.1 = q.1 ∧ mtxEq q.2.C p.2.C ∧ mtxEq q.2.S p.2.S)
        sets sets' := by
  induction sets with
  | nil =>
    refine ⟨[], [], fun acc => by simp [WmmData.save_sets], fun rest => rfl,
      List.Forall₂.nil⟩
  | cons p sets ih =>
    obtain ⟨t, cs', hsave, hload, hC, hS⟩ := set_roundtrip p.2 (h p (by simp))
    obtain ⟨toks, sets', hsaves, hloads, hfa⟩ :=
      ih (fun q hq => h q (List.mem_cons_of_mem _ hq))
    refine ⟨t ++ toks, (p.1, cs') :: sets', ?_, ?_, ?_⟩
    · intro acc
      unfold WmmData.save_sets
      rw [hsave]
      dsimp only
      rw [hsaves (acc ++ t), List.append_assoc]
    · intro rest
      rw [List.map_cons]
      unfold WmmData.load_sets
      rw [List.append_assoc, hload (toks ++ rest)]
      simp only [bind, Except.bind]
      rw [hloads rest]
      rfl
    · exact List.Forall₂.cons ⟨rfl, hC, hS⟩ hfa

/-- C3 (amended): for a model whose metadata fields are benign header
values with an explicit 8-character id, a non-default description, valid
format version, defaults in the non-serialized fields, computable years
matching the coefficient keys, and whose coefficient sets are square,
triangular, int32-sized, with zero order-0 sine column and nonzero cosine
corner, `save` to a fresh destination writes exactly the text and binary
pair, and `load` of that pair succeeds and reproduces the metadata exactly
and the coefficient sets entry for entry. -/
theorem save_load_roundtrip (w : WmmData) (ys : List Int)
    (hN : benignStr w.metadata.Name) (hD : benignStr w.metadata.Description)
    (hU : benignStr w.metadata.URL) (hP : benignStr w.metadata.Publisher)
    (hRd : benignStr w.metadata.ReleaseDate)
    (hDc : benignStr w.metadata.DataCutOff)
    (hCv : benignStr w.metadata.ConversionDate) (hI : benignStr w.metadata.ID)
    (hid1 : w.metadata.ID ≠ "") (hid2 : w.metadata.ID ≠ "N/A")
    (hlen : w.metadata.ID.length = 8)
    (hdesc : w.metadata.Description ≠ "International Geomagnetic Reference Field")
    (hfv : w.metadata.FORMAT_VERSION = 1 ∨ w.metadata.FORMAT_VERSION = 2)
    (hnc : w.metadata.NumConstants = 0) (hnorm : w.metadata.Normalization = 1)
    (hNf : w.metadata.N = 0) (hMf : w.metadata.M = 0)
    (hy : w.metadata.get_years = .ok ys)
    (hkeys : w.coeffs.map Prod.fst = ys.map pyStr ++ ["rate"])
    (hgood : ∀ p ∈ w.coeffs, goodSet p.2) :
    ∃ w' : WmmData,
      saveThenLoad w = some (.ok w') ∧
      w'.metadata = w.metadata ∧
      List.Forall₂
        (fun p q => p.1 = q.1 ∧ mtxEq q.2.C p.2.C ∧ mtxEq q.2.S p.2.S)
        w.coeffs w'.coeffs := by
  obtain ⟨hrender, hloadmd⟩ := metadata_roundtrip w.metadata hN hD hU hP hRd hDc
    hCv hI hid1 hid2 hdesc hfv hnc hnorm hNf hMf
  have hgid : w.metadata.get_id = w.metadata.ID := by
    unfold MetaData.get_id
    rw [if_neg (by rintro (h' | h'); exacts [hid1 h', hid2 h'])]
  obtain ⟨toks, sets', hsaves, hloads, hfa⟩ := sets_roundtrip w.coeffs hgood
  have hsph : w.save_sph_coeffs = ([.binFile ⟨w.metadata.ID, toks⟩], none) := by
    unfold WmmData.save_sph_coeffs
    rw [hgid]
    rw [if_neg (by simp [hlen])]
    rw [hsaves []]
    rfl
  have hsaveAll : WmmData.save w ⟨false, false⟩ false
      = ([.textFile (renderedLines w.metadata),
          .binFile ⟨w.metadata.ID, toks⟩], none) := by
    unfold WmmData.save
    rw [if_neg (by simp), if_neg (by simp)]
    unfold MetaData.save
    rw [hrender]
    dsimp only
    rw [hsph]
    rfl
  have hcheck2 : WmmData.check ⟨w.metadata, sets'⟩ = .ok () :=
    (check_eq_ok_iff w.metadata sets' ys hy).mpr
      (by rw [forall₂_keys_eq hfa, hkeys])
  have hcoef : WmmData.load_sph_coeffs w.metadata ⟨w.metadata.ID, toks⟩
      = .ok sets' := by
    unfold WmmData.load_sph_coeffs
    rw [hy]
    simp only [bind, Except.bind]
    rw [if_neg (by simp)]
    rw [← hkeys]
    have hl := hloads []
    rw [List.append_nil] at hl
    rw [hl]
    rfl
  have hwload : WmmData.load (renderedLines w.metadata) ⟨w.metadata.ID, toks⟩
      = .ok ⟨w.metadata, sets'⟩ := by
    unfold WmmData.load
    rw [hloadmd]
    simp only [bind, Except.bind]
    rw [hcoef]
    dsimp only
    rw [hcheck2]
    rfl
  refine ⟨⟨w.metadata, sets'⟩, ?_, rfl, hfa⟩
  unfold saveThenLoad
  rw [hsaveAll]
  dsimp only
  rw [hwload]

theorem save_load_roundtrip_witness :
    (benignStr wC3good.metadata.Name ∧ benignStr wC3good.metadata.Description ∧
     benignStr wC3good.metadata.URL ∧ benignStr wC3good.metadata.Publisher ∧
     benignStr wC3good.metadata.ReleaseDate ∧
     benignStr wC3good.metadata.DataCutOff ∧
     benignStr wC3good.metadata.ConversionDate ∧
     benignStr wC3good.metadata.ID ∧
     wC3good.metadata.ID ≠ "" ∧ wC3good.metadata.ID ≠ "N/A" ∧
     wC3good.metadata.ID.length = 8 ∧
     wC3good.metadata.Description
       ≠ "International Geomagnetic Reference Field" ∧
     (wC3good.metadata.FORMAT_VERSION = 1 ∨
       wC3good.metadata.FORMAT_VERSION = 2) ∧
     wC3good.metadata.NumConstants = 0 ∧ wC3good.metadata.Normalization = 1 ∧
     wC3good.metadata.N = 0 ∧ wC3good.metadata.M = 0 ∧
     wC3good.metadata.get_years = .ok [1900] ∧
     wC3good.coeffs.map Prod.fst = [(1900 : Int)].map pyStr ++ ["rate"] ∧
     (∀ p ∈ wC3good.coeffs, goodSet p.2)) ∧
    ∃ w' : WmmData,
      saveThenLoad wC3good = some (.ok w') ∧
      w'.metadata = wC3good.metadata ∧
      List.Forall₂
        (fun p q => p.1 = q.1 ∧ mtxEq q.2.C p.2.C ∧ mtxEq q.2.S p.2.S)
        wC3good.coeffs w'.coeffs := by
  have h : benignStr wC3good.metadata.Name ∧
      benignStr wC3good.metadata.Description ∧
      benignStr wC3good.metadata.URL ∧ benignStr wC3good.metadata.Publisher ∧
      benignStr wC3good.metadata.ReleaseDate ∧
      benignStr wC3good.metadata.DataCutOff ∧
      benignStr wC3good.metadata.ConversionDate ∧
      benignStr wC3good.metadata.ID ∧
      wC3good.metadata.ID ≠ "" ∧ wC3good.metadata.ID ≠ "N/A" ∧
      wC3good.metadata.ID.length = 8 ∧
      wC3good.metadata.Description
        ≠ "International Geomagnetic Reference Field" ∧
      (wC3good.metadata.FORMAT_VERSION = 1 ∨
        wC3good.metadata.FORMAT_VERSION = 2) ∧
      wC3good.metadata.NumConstants = 0 ∧ wC3good.metadata.Normalization = 1 ∧
      wC3good.metadata.N = 0 ∧ wC3good.metadata.M = 0 ∧
      wC3good.metadata.get_years = .ok [1900] ∧
      wC3good.coeffs.map Prod.fst = [(1900 : Int)].map pyStr ++ ["rate"] ∧
      (∀ p ∈ wC3good.coeffs, goodSet p.2) := by decide
  obtain ⟨h1, h2, h3, h4, h5, h6, h7, h8, h9, h10, h11, h12, h13, h14, h15,
    h16, h17, h18, h19, h20⟩ := h
  exact ⟨⟨h1, h2, h3, h4, h5, h6, h7, h8, h9, h10, h11, h12, h13, h14, h15,
      h16, h17, h18, h19, h20⟩,
    save_load_roundtrip wC3good [1900] h1 h2 h3 h4 h5 h6 h7 h8 h9 h10 h11 h12
      h13 h14 h15 h16 h17 h18 h19 h20⟩
